import Mathlib

/-!
Verification of the kysely-access-control / kysely-grants repository.

The development shallowly embeds the query-IR transformation engine of
`src/kyselyAccessControl.ts` (the `Transformer` subclass of kysely's
`OperationNodeTransformer` built by `createAccessControlPlugin`) and the
grant-resolution layer of `src/kyselyGrants.ts` (`createKyselyGrantGuard`).

Modelling conventions:
- The kysely operation-node IR is modelled by the single inductive `Node`,
  with one constructor per node kind the engine touches (TableNode,
  ColumnNode, ReferenceNode, SelectionNode, AliasNode, FromNode, JoinNode,
  OnNode, WhereNode, AndNode, OrNode, BinaryOperationNode, ValueNode,
  SelectQueryNode, InsertQueryNode, UpdateQueryNode, DeleteQueryNode,
  ColumnUpdateNode, ReturningNode, UsingNode, ValuesNode, ValueListNode).
- Guards are pure functions, as in the source.  A transformation runs in
  the `Res` monad which pairs an `Except String` result (thrown `Error`s
  become `Except.error` of the error message) with the ordered list of
  guard invocations made so far; the trace makes the "which guard was
  called, with what, and when" claims provable.
- The traversal of `OperationNodeTransformer` (push node on `nodeStack`,
  dispatch on kind, rebuild children recursively) is modelled by the
  fuel-indexed function `transformNode`; fuel decreases by one on every
  node visit, so structural recursion on the fuel gives an executable
  definition.  Running out of fuel is an error distinct from all engine
  errors; every claim is stated either for all fuels or with enough fuel.
-/

set_option maxHeartbeats 1600000

namespace KAC

/-- `StatementType` enum of the source (string enum select/insert/update/delete). -/
inductive StatementType where
  | select
  | insert
  | update
  | delete
deriving DecidableEq, Repr

/-- `TableUsageContext` enum: `TableTopLevel` / `TableInJoin`. -/
inductive TableUsageContext where
  | topLevel
  | inJoin
deriving DecidableEq, Repr

/-- `ColumnUsageContext` enum: `ColumnInSelectOrReturning`, `ColumnInWhereOrJoin`,
`ColumnInUpdateSet`, `ColumnInInsert`. -/
inductive ColumnUsageContext where
  | selectOrReturning
  | whereOrJoin
  | updateSet
  | insertValues
deriving DecidableEq, Repr

/-- The `TableNode["table"]` payload handed to guards: optional schema name
(`table.schema?.name`) and table name (`table.identifier.name`). -/
structure TableRef where
  schema : Option String
  name : String
deriving DecidableEq, Repr

/-- The kysely operation-node IR fragment the engine traverses.  Each
constructor mirrors one kysely node kind; children are in source field
order.  `valueN none` is an opaque value, `valueN (some b)` is a boolean
literal (`eb.lit`). -/
inductive Node where
  | tableN (schema : Option String) (name : String)
  | columnN (name : String)
  | selectAllN
  | identifierN (name : String)
  | referenceN (table : Option Node) (column : Node)
  | selectionN (selection : Node)
  | aliasN (inner : Node) (aliasId : Node)
  | fromN (froms : List Node)
  | joinN (table : Node) (onNode : Option Node)
  | onN (expr : Node)
  | whereN (expr : Node)
  | andN (left : Node) (right : Node)
  | orN (left : Node) (right : Node)
  | binN (left : Node) (op : String) (right : Node)
  | valueN (lit : Option Bool)
  | selectQueryN (fromNode : Option Node) (selections : Option (List Node))
      (joins : Option (List Node)) (whereNode : Option Node)
  | insertQueryN (into : Node) (columns : Option (List Node))
      (values : Option Node) (returningNode : Option Node)
  | updateQueryN (table : Node) (fromNode : Option Node)
      (updates : Option (List Node)) (whereNode : Option Node)
      (returningNode : Option Node)
  | deleteQueryN (fromNode : Node) (usingNode : Option Node)
      (whereNode : Option Node) (returningNode : Option Node)
  | columnUpdateN (column : Node) (value : Node)
  | returningN (selections : List Node)
  | usingN (tables : List Node)
  | valuesN (valueLists : List Node)
  | valueListN (values : List Node)

/-- Table-guard results (`TableGuardResult`): `Allow`, `[Allow, expr]`,
`Deny`, `[Deny, reason]`. -/
inductive TableDecision where
  | allow
  | allowWith (pred : Node)
  | deny
  | denyWith (reason : String)

/-- Column-guard results (`ColumnGuardResult`): `Allow`, `Omit`, `Deny`,
`[Deny, reason]`. -/
inductive ColumnDecision where
  | allow
  | omit
  | deny
  | denyWith (reason : String)
deriving DecidableEq, Repr

/-- A fully-populated guard (`FullKyselyAccessControlGuard`). -/
structure Guard where
  table : TableRef → StatementType → TableUsageContext → TableDecision
  column : TableRef → String → StatementType → ColumnUsageContext → ColumnDecision

/-- One guard invocation, recorded in the transformation trace. -/
inductive GuardCall where
  | tableCall (t : TableRef) (st : StatementType) (ctx : TableUsageContext)
      (result : TableDecision)
  | columnCall (t : TableRef) (col : String) (st : StatementType)
      (ctx : ColumnUsageContext) (result : ColumnDecision)

/-- Result of a transformation step: an `Except` outcome plus the ordered
guard-call trace produced so far (kept even when an error aborts). -/
structure Res (α : Type) where
  result : Except String α
  calls : List GuardCall

instance : Monad Res where
  pure a := ⟨Except.ok a, []⟩
  bind r f :=
    match r.result with
    | Except.ok a => ⟨(f a).result, r.calls ++ (f a).calls⟩
    | Except.error e => ⟨Except.error e, r.calls⟩

/-- Throwing an `Error` in the source. -/
def errRes (msg : String) : Res α := ⟨Except.error msg, []⟩

/-- Invoke the table guard, recording the call. -/
def callTable (g : Guard) (t : TableRef) (st : StatementType)
    (ctx : TableUsageContext) : Res TableDecision :=
  ⟨Except.ok (g.table t st ctx), [GuardCall.tableCall t st ctx (g.table t st ctx)]⟩

/-- Invoke the column guard, recording the call. -/
def callColumn (g : Guard) (t : TableRef) (col : String) (st : StatementType)
    (ctx : ColumnUsageContext) : Res ColumnDecision :=
  ⟨Except.ok (g.column t col st ctx), [GuardCall.columnCall t col st ctx (g.column t col st ctx)]⟩

@[simp] theorem Res.pure_def (a : α) : (pure a : Res α) = ⟨Except.ok a, []⟩ := rfl

@[simp] theorem Res.bind_mk_ok (a : α) (cs : List GuardCall) (f : α → Res β) :
    (Res.mk (Except.ok a) cs >>= f) = ⟨(f a).result, cs ++ (f a).calls⟩ := rfl

@[simp] theorem Res.bind_mk_error (e : String) (cs : List GuardCall) (f : α → Res β) :
    (Res.mk (Except.error e) cs >>= f) = ⟨Except.error e, cs⟩ := rfl

@[simp] theorem Res.errRes_def (msg : String) : (errRes msg : Res α) = ⟨Except.error msg, []⟩ := rfl

theorem Res.bind_result_ok {r : Res α} {f : α → Res β} {b : β}
    (h : (r >>= f).result = Except.ok b) :
    ∃ a, r.result = Except.ok a ∧ (f a).result = Except.ok b := by
  rcases r with ⟨res, cs⟩
  cases res with
  | ok a => exact ⟨a, rfl, by simpa using h⟩
  | error e => simp at h

/-- Lift a pure `Except` computation (invariants, pure utilities) into `Res`. -/
def liftE (e : Except String α) : Res α := ⟨e, []⟩

@[simp] theorem liftE_ok (a : α) : (liftE (Except.ok a) : Res α) = ⟨Except.ok a, []⟩ := rfl

@[simp] theorem liftE_error (e : String) : (liftE (Except.error e) : Res α) = ⟨Except.error e, []⟩ := rfl

/-- Monadic map over a list (kysely `transformNodeList`), left to right. -/
def listM (f : α → Res β) : List α → Res (List β)
  | [] => pure []
  | x :: xs => do
      let y ← f x
      let ys ← listM f xs
      pure (y :: ys)

/-- Monadic map over an optional child (kysely `transformNode` on a
possibly-undefined field). -/
def optM (f : α → Res β) : Option α → Res (Option β)
  | none => pure none
  | some x => do
      let y ← f x
      pure (some y)

/-- Monadic map over an optional node list (e.g. `selections`, `joins`). -/
def optListM (f : α → Res β) : Option (List α) → Res (Option (List β))
  | none => pure none
  | some xs => do
      let ys ← listM f xs
      pure (some ys)

/-- The qualified table name used in the source's error messages:
`table.schema?.name ? schema + "." : ""` followed by `identifier.name`. -/
def tableErrName (t : TableRef) : String :=
  (match t.schema with
    | some s => s ++ "."
    | none => "") ++ t.name

/-- `throwIfDenyWithReason` (src/kyselyAccessControl.ts lines 78-89) applied
to a table-guard result: `Deny` throws the core message, `[Deny, reason]`
throws `core ++ ": " ++ reason`, anything else passes. -/
def throwIfDenyT (r : TableDecision) (core : String) : Res Unit :=
  match r with
  | TableDecision.deny => errRes core
  | TableDecision.denyWith reason => errRes (core ++ ": " ++ reason)
  | _ => pure ()

/-- `throwIfDenyWithReason` applied to a column-guard result. -/
def throwIfDenyC (r : ColumnDecision) (core : String) : Res Unit :=
  match r with
  | ColumnDecision.deny => errRes core
  | ColumnDecision.denyWith reason => errRes (core ++ ": " ++ reason)
  | _ => pure ()

/-- Kind discriminators used by the `isAChildOf` / `.is(...)` checks. -/
def Node.isWhereN : Node → Bool
  | Node.whereN _ => true
  | _ => false

def Node.isJoinN : Node → Bool
  | Node.joinN _ _ => true
  | _ => false

def Node.isFromN : Node → Bool
  | Node.fromN _ => true
  | _ => false

def Node.isUsingN : Node → Bool
  | Node.usingN _ => true
  | _ => false

def Node.isTableN : Node → Bool
  | Node.tableN _ _ => true
  | _ => false

/-- `node.kind` strings for the one error message that interpolates a kind. -/
def Node.kindName : Node → String
  | Node.tableN _ _ => "TableNode"
  | Node.columnN _ => "ColumnNode"
  | Node.selectAllN => "SelectAllNode"
  | Node.identifierN _ => "IdentifierNode"
  | Node.referenceN _ _ => "ReferenceNode"
  | Node.selectionN _ => "SelectionNode"
  | Node.aliasN _ _ => "AliasNode"
  | Node.fromN _ => "FromNode"
  | Node.joinN _ _ => "JoinNode"
  | Node.onN _ => "OnNode"
  | Node.whereN _ => "WhereNode"
  | Node.andN _ _ => "AndNode"
  | Node.orN _ _ => "OrNode"
  | Node.binN _ _ _ => "BinaryOperationNode"
  | Node.valueN _ => "ValueNode"
  | Node.selectQueryN _ _ _ _ => "SelectQueryNode"
  | Node.insertQueryN _ _ _ _ => "InsertQueryNode"
  | Node.updateQueryN _ _ _ _ _ => "UpdateQueryNode"
  | Node.deleteQueryN _ _ _ _ => "DeleteQueryNode"
  | Node.columnUpdateN _ _ => "ColumnUpdateNode"
  | Node.returningN _ => "ReturningNode"
  | Node.usingN _ => "UsingNode"
  | Node.valuesN _ => "ValuesNode"
  | Node.valueListN _ => "ValueListNode"

/-- Error used where the TypeScript source would crash with a `TypeError`
on an operation node violating kysely's node typing (unreachable for
well-formed IR; kept total here). -/
def malformedIR : String := "kysely-access-control: malformed operation node"

/-- `getParentNode`: the stack is kept most-recent-first and includes the
current node, so the parent is the second entry
(`nodeStack[nodeStack.length - 2]` in the source). -/
def parentNode (stack : List Node) : Option Node := stack[1]?

/-- `_topLevelHasMoreThanOneTable` (src/kyselyAccessControl.ts lines
699-724): whether a select/update/delete query has more than one table in
reference scope. -/
def topLevelHasMoreThanOneTable : Node → Except String Bool
  | Node.updateQueryN _ fromNode _ _ _ =>
      match fromNode with
      | some (Node.fromN froms) => Except.ok (decide (froms.length > 0))
      | some _ => Except.error malformedIR
      | none => Except.ok false
  | Node.selectQueryN _ _ joins _ =>
      match joins with
      | some js => Except.ok (decide (js.length > 0))
      | none => Except.ok false
  | Node.deleteQueryN _ usingNode _ _ =>
      match usingNode with
      | some (Node.usingN tables) => Except.ok (decide (tables.length > 0))
      | _ => Except.ok false
  | _ => Except.error
      "_topLevelHasMoreThanOneTable called with something that is not a select, update, or delete query"

/-- `_getTableNodeFromTopLevelQueryNode` (src/kyselyAccessControl.ts lines
729-781): the single table node of a top-level query, with the source's
invariant messages. -/
def getTableNodeFromTopLevelQueryNode : Node → Except String Node
  | Node.updateQueryN table _ _ _ _ =>
      match table with
      | Node.tableN sch nm => Except.ok (Node.tableN sch nm)
      | _ => Except.error "kysely-access-control: update query must have a table"
  | Node.selectQueryN fromNode _ _ _ =>
      match fromNode with
      | some (Node.fromN [t]) =>
          match t with
          | Node.tableN sch nm => Except.ok (Node.tableN sch nm)
          | _ => Except.error "kysely-access-control: select query must have a table"
      | _ => Except.error "kysely-access-control: select query must have exactly one from"
  | Node.deleteQueryN fromNode _ _ _ =>
      match fromNode with
      | Node.fromN [t] =>
          match t with
          | Node.tableN sch nm => Except.ok (Node.tableN sch nm)
          | _ => Except.error "kysely-access-control: delete query must have a table"
      | _ => Except.error "kysely-access-control: delete query must have exactly one from"
  | Node.insertQueryN into _ _ _ =>
      match into with
      | Node.tableN sch nm => Except.ok (Node.tableN sch nm)
      | _ => Except.error "kysely-access-control: insert query must have a table"
  | _ => Except.error
      "_getTopLevelTableNode called with something that is not a select, update, delete, or insert query"

/-- The per-selection loop of `_transformSelections` (src lines 806-857):
each selection must be a reference to a plain column; when more than one
table is in scope the column must be qualified; the column guard is asked
with `ColumnInSelectOrReturning`; `Deny` throws, `Omit` drops the
selection, `Allow` keeps it. -/
def selectionsLoop (g : Guard) (st : StatementType) (tableNode : Node) (multi : Bool) :
    List Node → Res (List Node)
  | [] => pure []
  | selNode :: rest =>
      match selNode with
      | Node.selectionN (Node.referenceN qualifier (Node.columnN colName)) => do
          let chosen ← liftE (if multi then
              match qualifier with
              | some q => Except.ok q
              | none => Except.error
                  ("kysely-access-control: table must be specified for each column when joining - could not infer table for "
                    ++ colName)
            else Except.ok tableNode)
          match chosen with
          | Node.tableN sch nm => do
              let t : TableRef := ⟨sch, nm⟩
              let gr ← callColumn g t colName st ColumnUsageContext.selectOrReturning
              throwIfDenyC gr ("SELECT denied on column " ++ tableErrName t ++ "." ++ colName)
              let rest' ← selectionsLoop g st tableNode multi rest
              if gr = ColumnDecision.omit then
                pure rest'
              else
                pure (Node.selectionN (Node.referenceN qualifier (Node.columnN colName)) :: rest')
          | _ => errRes malformedIR
      | Node.selectionN (Node.referenceN _ _) =>
          errRes "kysely-access-control: .selectAll() is not supported"
      | _ => errRes "kysely-access-control: selection must be a reference node"

/-- `_transformSelections` (src lines 787-860): selections are passed
through untouched when the scope is inside a join/from/using clause
(select-all is allowed there), otherwise each selection is enforced. -/
def transformSelectionsFn (g : Guard) (stack : List Node) (selections : List Node)
    (tableNode : Node) (multi : Bool) (st : StatementType) : Res (List Node) :=
  if stack.any Node.isJoinN || stack.any Node.isFromN || stack.any Node.isUsingN then
    pure selections
  else
    selectionsLoop g st tableNode multi selections

/-- The per-column loop of `transformInsertQuery` (src lines 238-261):
`Deny` throws, `Omit` drops the column from the list, `Allow` keeps it. -/
def insertColumnsLoop (g : Guard) (t : TableRef) : List Node → Res (List Node)
  | [] => pure []
  | c :: rest =>
      match c with
      | Node.columnN colName => do
          let gr ← callColumn g t colName StatementType.insert ColumnUsageContext.insertValues
          throwIfDenyC gr ("INSERT denied on column " ++ tableErrName t ++ "." ++ colName)
          let rest' ← insertColumnsLoop g t rest
          if gr = ColumnDecision.omit then
            pure rest'
          else
            pure (Node.columnN colName :: rest')
      | _ => errRes malformedIR

/-- The per-column loop of `transformUpdateQuery` (src lines 173-199):
`Deny` throws, `Omit` throws its dedicated error, `Allow` passes. -/
def updateSetLoop (g : Guard) (t : TableRef) : List Node → Res Unit
  | [] => pure ()
  | u :: rest =>
      match u with
      | Node.columnUpdateN (Node.columnN colName) _ => do
          let gr ← callColumn g t colName StatementType.update ColumnUsageContext.updateSet
          throwIfDenyC gr ("UPDATE denied on column " ++ tableErrName t ++ "." ++ colName)
          if gr = ColumnDecision.omit then
            errRes ("Omit is not supported in update set: got Omit for " ++ colName)
          else
            updateSetLoop g t rest
      | _ => errRes malformedIR

/-- The derived subquery that replaces a named table carrying RLS in a
join/from/using position (src lines 474-480, 522-528, 571-577):
`AliasNode(SelectQueryNode(select * from table), table name)`. -/
def rlsSubquery (sch : Option String) (nm : String) : Node :=
  Node.aliasN
    (Node.selectQueryN (some (Node.fromN [Node.tableN sch nm]))
      (some [Node.selectionN Node.selectAllN]) none none)
    (Node.identifierN nm)

/-- The per-relation loop of `transformFrom` for update queries (src lines
495-529): tables are guarded with `(Update, TableInJoin)`; RLS replaces
them with the aliased subquery; non-tables pass through. -/
def updateFromLoop (g : Guard) : List Node → Res (List Node)
  | [] => pure []
  | f :: rest =>
      match f with
      | Node.tableN sch nm => do
          let t : TableRef := ⟨sch, nm⟩
          let gr ← callTable g t StatementType.update TableUsageContext.inJoin
          throwIfDenyT gr ("JOIN denied on table " ++ tableErrName t)
          let f' := match gr with
            | TableDecision.allow => Node.tableN sch nm
            | _ => rlsSubquery sch nm
          let rest' ← updateFromLoop g rest
          pure (f' :: rest')
      | other => do
          let rest' ← updateFromLoop g rest
          pure (other :: rest')

/-- The per-relation loop of `transformUsing` for delete queries (src lines
544-578): tables are guarded with `(Delete, TableInJoin)`. -/
def usingLoop (g : Guard) : List Node → Res (List Node)
  | [] => pure []
  | tb :: rest =>
      match tb with
      | Node.tableN sch nm => do
          let t : TableRef := ⟨sch, nm⟩
          let gr ← callTable g t StatementType.delete TableUsageContext.inJoin
          throwIfDenyT gr ("JOIN denied on table " ++ tableErrName t)
          let tb' := match gr with
            | TableDecision.allow => Node.tableN sch nm
            | _ => rlsSubquery sch nm
          let rest' ← usingLoop g rest
          pure (tb' :: rest')
      | other => do
          let rest' ← usingLoop g rest
          pure (other :: rest')

/-- The recursive transform callback threaded through the per-kind
transformers: `this.transformNode` of the transformer instance, applied to
an ancestor stack and a node. -/
abbrev TransformFn := List Node → Node → Res Node

/-- `transformSelectQuery` (src lines 366-432).  `stack` already contains
the select node itself.  The `_transformWhere` block (src lines 862-890) is
inlined after the guard call: plain `Allow` keeps the where clause
untouched; `[Allow, pred]` builds `WhereNode(AndNode(pred, oldWhere))` (or
`WhereNode(pred)` when no clause exists) and passes it through
`super.transformWhere`, i.e. its inner expression is transformed in the
current stack context.  The final block is `super.transformSelectQuery` on
the updated node: children rebuilt in source field order. -/
def trSelectQuery (g : Guard) (rec : TransformFn) (stack : List Node)
    (fromNode : Option Node) (selections : Option (List Node))
    (joins : Option (List Node)) (whereNode : Option Node) : Res Node :=
  match fromNode with
  | none => do
      -- literal-only select: nothing enforced, super rebuild only
      let s' ← optListM (fun x => rec stack x) selections
      let j' ← optListM (fun x => rec stack x) joins
      let w' ← optM (fun x => rec stack x) whereNode
      pure (Node.selectQueryN none s' j' w')
  | some fromClause =>
    match fromClause with
    | Node.fromN froms =>
      match froms with
      | [fromTable] =>
        match fromTable with
        | Node.tableN sch nm =>
          match selections with
          | none => errRes "kysely-access-control: selections should be defined"
          | some sels => do
              let t : TableRef := ⟨sch, nm⟩
              let gr ← callTable g t StatementType.select TableUsageContext.topLevel
              throwIfDenyT gr ("SELECT denied on table " ++ tableErrName t)
              let hasJoin := match joins with
                | some js => decide (js.length > 0)
                | none => false
              let sels' ← transformSelectionsFn g stack sels (Node.tableN sch nm)
                hasJoin StatementType.select
              -- _transformWhere(guardResult, node.where)
              let newWhere ← (match gr with
                | TableDecision.allow => pure whereNode
                | TableDecision.allowWith pred => do
                    let combined := match whereNode with
                      | none => pred
                      | some (Node.whereN w) => Node.andN pred w
                      | some _ => Node.andN pred (Node.valueN none)
                    let e' ← rec stack combined
                    pure (some (Node.whereN e'))
                | TableDecision.deny =>
                    errRes "kysely-access-control: returned where must be an expression wrapper"
                | TableDecision.denyWith _ =>
                    errRes "kysely-access-control: returned where must be an expression wrapper")
              -- super.transformSelectQuery({...node, selections, where})
              let f' ← rec stack (Node.fromN froms)
              let s' ← optListM (fun x => rec stack x) (some sels')
              let j' ← optListM (fun x => rec stack x) joins
              let w' ← optM (fun x => rec stack x) newWhere
              pure (Node.selectQueryN (some f') s' j' w')
        | _ => errRes "kysely-access-control: currently only select from table/view is supported"
      | _ => errRes "kysely-access-control: there must be exactly one from node when not joining"
    | _ => errRes malformedIR

/-- `transformInsertQuery` (src lines 216-267). -/
def trInsertQuery (g : Guard) (rec : TransformFn) (stack : List Node)
    (into : Node) (columns : Option (List Node)) (values returning : Option Node) : Res Node :=
  match into with
  | Node.tableN sch nm => do
      let t : TableRef := ⟨sch, nm⟩
      let gr ← callTable g t StatementType.insert TableUsageContext.topLevel
      throwIfDenyT gr ("INSERT denied on table " ++ tableErrName t)
      match columns with
      | none => do
          -- no explicit column list: super.transformInsertQuery(node)
          let into' ← rec stack (Node.tableN sch nm)
          let vals' ← optM (fun x => rec stack x) values
          let ret' ← optM (fun x => rec stack x) returning
          pure (Node.insertQueryN into' none vals' ret')
      | some cols => do
          let cols2 ← insertColumnsLoop g t cols
          -- super.transformInsertQuery({...node, columns: cols2})
          let into' ← rec stack (Node.tableN sch nm)
          let cols' ← optListM (fun x => rec stack x) (some cols2)
          let vals' ← optM (fun x => rec stack x) values
          let ret' ← optM (fun x => rec stack x) returning
          pure (Node.insertQueryN into' cols' vals' ret')
  | _ => errRes malformedIR

/-- `transformUpdateQuery` (src lines 151-208), with the inlined
`_transformWhere` block as in `trSelectQuery`. -/
def trUpdateQuery (g : Guard) (rec : TransformFn) (stack : List Node)
    (table : Node) (fromNode : Option Node) (updates : Option (List Node))
    (whereNode returning : Option Node) : Res Node :=
  match table with
  | Node.tableN sch nm => do
      let t : TableRef := ⟨sch, nm⟩
      let gr ← callTable g t StatementType.update TableUsageContext.topLevel
      throwIfDenyT gr ("UPDATE denied on table " ++ tableErrName t)
      (match updates with
        | some ups => updateSetLoop g t ups
        | none => pure ())
      -- _transformWhere(guardResult, node.where)
      let newWhere ← (match gr with
        | TableDecision.allow => pure whereNode
        | TableDecision.allowWith pred => do
            let combined := match whereNode with
              | none => pred
              | some (Node.whereN w) => Node.andN pred w
              | some _ => Node.andN pred (Node.valueN none)
            let e' ← rec stack combined
            pure (some (Node.whereN e'))
        | TableDecision.deny =>
            errRes "kysely-access-control: returned where must be an expression wrapper"
        | TableDecision.denyWith _ =>
            errRes "kysely-access-control: returned where must be an expression wrapper")
      -- super.transformUpdateQuery({...node, where: newWhere})
      let table' ← rec stack (Node.tableN sch nm)
      let from' ← optM (fun x => rec stack x) fromNode
      let ups' ← optListM (fun x => rec stack x) updates
      let w' ← optM (fun x => rec stack x) newWhere
      let ret' ← optM (fun x => rec stack x) returning
      pure (Node.updateQueryN table' from' ups' w' ret')
  | _ => errRes "kysely-access-control: only table nodes are supported for update queries"

/-- `transformDeleteQuery` (src lines 330-359). -/
def trDeleteQuery (g : Guard) (rec : TransformFn) (stack : List Node)
    (fromNode : Node) (usingNode whereNode returning : Option Node) : Res Node :=
  match fromNode with
  | Node.fromN froms =>
    match froms with
    | [delTable] =>
      match delTable with
      | Node.tableN sch nm => do
          let t : TableRef := ⟨sch, nm⟩
          let gr ← callTable g t StatementType.delete TableUsageContext.topLevel
          throwIfDenyT gr ("DELETE denied on table " ++ tableErrName t)
          -- must be allow (no RLS on delete target): super.transformDeleteQuery(node)
          let f' ← rec stack (Node.fromN froms)
          let u' ← optM (fun x => rec stack x) usingNode
          let w' ← optM (fun x => rec stack x) whereNode
          let ret' ← optM (fun x => rec stack x) returning
          pure (Node.deleteQueryN f' u' w' ret')
      | _ => errRes "kysely-access-control: can only delete from tables"
    | _ => errRes "kysely-access-control: can only delete from one table at a time"
  | _ => errRes malformedIR

/-- `transformReturning` (src lines 273-324): the statement type and the
authorized table come from the parent node on the stack. -/
def trReturning (g : Guard) (rec : TransformFn) (stack : List Node)
    (selections : List Node) : Res Node :=
  match parentNode stack with
  | none => errRes malformedIR
  | some p =>
    match p with
    | Node.insertQueryN into _ _ _ =>
      (match into with
      | Node.tableN sch nm => do
          let sels' ← transformSelectionsFn g stack selections (Node.tableN sch nm)
            false StatementType.insert
          let sels2 ← listM (fun x => rec stack x) sels'
          pure (Node.returningN sels2)
      | _ => errRes "kysely-access-control: currently only update/delete from a table")
    | Node.updateQueryN table _ _ _ _ =>
      (match table with
      | Node.tableN sch nm => do
          let sels' ← transformSelectionsFn g stack selections (Node.tableN sch nm)
            false StatementType.update
          let sels2 ← listM (fun x => rec stack x) sels'
          pure (Node.returningN sels2)
      | _ => errRes "kysely-access-control: currently only update/delete from a table")
    | Node.deleteQueryN fromNode _ _ _ =>
      (match fromNode with
      | Node.fromN froms =>
        match froms.head? with
        | some (Node.tableN sch nm) => do
            let sels' ← transformSelectionsFn g stack selections (Node.tableN sch nm)
              false StatementType.delete
            let sels2 ← listM (fun x => rec stack x) sels'
            pure (Node.returningN sels2)
        | _ => errRes "kysely-access-control: currently only update/delete from a table"
      | _ => errRes malformedIR)
    | other => errRes
        ("kysely-access-control: returning must be used with insert, update, or delete. kind was "
          ++ other.kindName)

/-- `transformJoin` (src lines 443-486). -/
def trJoin (g : Guard) (rec : TransformFn) (stack : List Node)
    (table : Node) (onNode : Option Node) : Res Node :=
  match table with
  | Node.tableN sch nm => do
      let t : TableRef := ⟨sch, nm⟩
      let gr ← callTable g t StatementType.select TableUsageContext.inJoin
      throwIfDenyT gr ("JOIN denied on table " ++ tableErrName t)
      match gr with
      | TableDecision.allow => do
          -- super.transformJoin(node)
          let tb' ← rec stack (Node.tableN sch nm)
          let on' ← optM (fun x => rec stack x) onNode
          pure (Node.joinN tb' on')
      | _ => do
          -- RLS: super.transformJoin({...node, table: aliased subquery})
          let tb' ← rec stack (rlsSubquery sch nm)
          let on' ← optM (fun x => rec stack x) onNode
          pure (Node.joinN tb' on')
  | _ => do
      -- not a table node: enforcement happens on its components
      let tb' ← rec stack table
      let on' ← optM (fun x => rec stack x) onNode
      pure (Node.joinN tb' on')

/-- `transformFrom` (src lines 488-535). -/
def trFrom (g : Guard) (rec : TransformFn) (stack : List Node)
    (froms : List Node) : Res Node :=
  match parentNode stack with
  | some (Node.updateQueryN _ _ _ _ _) => do
      let newFroms ← updateFromLoop g froms
      -- super.transformFrom({...node, froms: newFroms})
      let froms' ← listM (fun x => rec stack x) newFroms
      pure (Node.fromN froms')
  | _ => do
      let froms' ← listM (fun x => rec stack x) froms
      pure (Node.fromN froms')

/-- `transformUsing` (src lines 537-584). -/
def trUsing (g : Guard) (rec : TransformFn) (stack : List Node)
    (tables : List Node) : Res Node :=
  match parentNode stack with
  | some (Node.deleteQueryN _ _ _ _) => do
      let newTables ← usingLoop g tables
      -- super.transformUsing({...node, tables: newTables})
      let tables' ← listM (fun x => rec stack x) newTables
      pure (Node.usingN tables')
  | _ => do
      let tables' ← listM (fun x => rec stack x) tables
      pure (Node.usingN tables')

/-- `transformReference` (src lines 598-689). -/
def trReference (g : Guard) (rec : TransformFn) (stack : List Node)
    (qualifier : Option Node) (column : Node) : Res Node :=
  let isChildWhere := stack.any Node.isWhereN
  let isChildJoin := stack.any Node.isJoinN
  if !isChildWhere && !isChildJoin then do
    -- super.transformReference(node)
    let q' ← optM (fun x => rec stack x) qualifier
    let c' ← rec stack column
    pure (Node.referenceN q' c')
  else do
    let tblNode ← liftE (match qualifier with
      | some tq => Except.ok tq
      | none =>
          if !isChildWhere then
            Except.error "kysely-access-control: could not find table node for column reference in join"
          else
            -- the stack is already the source reversed stack
            match stack[stack.findIdx Node.isWhereN + 1]? with
            | none => Except.error "kysely-access-control: could not find parent of where node"
            | some parentOfWhere => do
                let hasJoins ← topLevelHasMoreThanOneTable parentOfWhere
                if hasJoins then
                  Except.error
                    "kysely-access-control: if joins are present, each column reference in where must specify the table"
                else
                  getTableNodeFromTopLevelQueryNode parentOfWhere)
    match tblNode with
    | Node.tableN sch nm =>
      (match column with
      | Node.columnN colName => do
          let t : TableRef := ⟨sch, nm⟩
          let gr ← callColumn g t colName StatementType.select ColumnUsageContext.whereOrJoin
          throwIfDenyC gr ("FILTER denied on column " ++ tableErrName t ++ "." ++ colName)
          -- must be allow now: super.transformReference(node)
          let q' ← optM (fun x => rec stack x) qualifier
          let c' ← rec stack column
          pure (Node.referenceN q' c')
      | _ => errRes "kysely-access-control: select all in filter statement is not supported")
    | _ => errRes "kysely-access-control: node for column reference in filter statement must be a table node"

/-- The traversal of the plugin's `Transformer`.

`transformNode fuel stack n` models
`OperationNodeTransformer.transformNode` applied to `n` with ancestor
stack `stack` (most-recent-first, as the source nodeStack reversed): the
node is pushed, then the transformer for its kind runs.  Overridden kinds
(select/insert/update/delete queries, returning, join, from, using,
reference) dispatch to the `trX` functions above, handing them the
recursive transform as the callback; their `super.transformX` calls are
the child-by-child rebuilds of kysely default transformers (children in
source field order).  Non-overridden kinds get the default rebuild
directly here.

Fuel decreases on each visited node; exhaustion is the distinguished
`"kysely-access-control: out of fuel"` error. -/
def transformNode (g : Guard) : Nat → List Node → Node → Res Node
  | 0, _, _ => errRes "kysely-access-control: out of fuel"
  | fuel+1, stack0, n =>
    let stack := n :: stack0
    match n with
    /- leaves: default transformers rebuild them unchanged -/
    | Node.tableN sch nm => pure (Node.tableN sch nm)
    | Node.columnN nm => pure (Node.columnN nm)
    | Node.selectAllN => pure Node.selectAllN
    | Node.identifierN nm => pure (Node.identifierN nm)
    | Node.valueN v => pure (Node.valueN v)
    /- default transformers of non-overridden compound kinds -/
    | Node.selectionN sel => do
        let sel' ← transformNode g fuel stack sel
        pure (Node.selectionN sel')
    | Node.aliasN inner al => do
        let inner' ← transformNode g fuel stack inner
        let al' ← transformNode g fuel stack al
        pure (Node.aliasN inner' al')
    | Node.onN e => do
        let e' ← transformNode g fuel stack e
        pure (Node.onN e')
    | Node.whereN e => do
        let e' ← transformNode g fuel stack e
        pure (Node.whereN e')
    | Node.andN l r => do
        let l' ← transformNode g fuel stack l
        let r' ← transformNode g fuel stack r
        pure (Node.andN l' r')
    | Node.orN l r => do
        let l' ← transformNode g fuel stack l
        let r' ← transformNode g fuel stack r
        pure (Node.orN l' r')
    | Node.binN l op r => do
        let l' ← transformNode g fuel stack l
        let r' ← transformNode g fuel stack r
        pure (Node.binN l' op r')
    | Node.columnUpdateN c v => do
        let c' ← transformNode g fuel stack c
        let v' ← transformNode g fuel stack v
        pure (Node.columnUpdateN c' v')
    | Node.valuesN ls => do
        let ls' ← listM (fun x => transformNode g fuel stack x) ls
        pure (Node.valuesN ls')
    | Node.valueListN vs => do
        let vs' ← listM (fun x => transformNode g fuel stack x) vs
        pure (Node.valueListN vs')
    /- overridden kinds -/
    | Node.selectQueryN fromNode selections joins whereNode =>
        trSelectQuery g (fun s x => transformNode g fuel s x) stack
          fromNode selections joins whereNode
    | Node.insertQueryN into columns values returning =>
        trInsertQuery g (fun s x => transformNode g fuel s x) stack
          into columns values returning
    | Node.updateQueryN table fromNode updates whereNode returning =>
        trUpdateQuery g (fun s x => transformNode g fuel s x) stack
          table fromNode updates whereNode returning
    | Node.deleteQueryN fromNode usingNode whereNode returning =>
        trDeleteQuery g (fun s x => transformNode g fuel s x) stack
          fromNode usingNode whereNode returning
    | Node.returningN selections =>
        trReturning g (fun s x => transformNode g fuel s x) stack selections
    | Node.joinN table onNode =>
        trJoin g (fun s x => transformNode g fuel s x) stack table onNode
    | Node.fromN froms =>
        trFrom g (fun s x => transformNode g fuel s x) stack froms
    | Node.usingN tables =>
        trUsing g (fun s x => transformNode g fuel s x) stack tables
    | Node.referenceN qualifier column =>
        trReference g (fun s x => transformNode g fuel s x) stack qualifier column

/-- `createAccessControlPlugin(guard).transformQuery`: the transformer is
instantiated fresh, so the statement is transformed with an empty node
stack. -/
def transformQuery (g : Guard) (fuel : Nat) (n : Node) : Res Node :=
  transformNode g fuel [] n

/-- A partial guard as supplied by the caller (`KyselyAccessControlGuard`). -/
structure PartialGuard where
  table : Option (TableRef → StatementType → TableUsageContext → TableDecision)
  column : Option (TableRef → String → StatementType → ColumnUsageContext → ColumnDecision)

/-- The default-filling of `createAccessControlPlugin` (src lines 122-131):
missing guards become constant `Allow`. -/
def fillGuard (pg : PartialGuard) : Guard :=
  ⟨pg.table.getD (fun _ _ _ => TableDecision.allow),
   pg.column.getD (fun _ _ _ _ => ColumnDecision.allow)⟩

/-!
The grant-resolution layer (`createKyselyGrantGuard`, src/kyselyGrants.ts).
-/

/-- `Grant.for`: `"all" | "select" | "update" | "insert" | "delete"`. -/
inductive Perm where
  | all
  | select
  | insert
  | update
  | delete
deriving DecidableEq, Repr

/-- The statement type as a permission string (`grant.for === statementType`
compares the two string enums). -/
def Perm.ofStmt : StatementType → Perm
  | StatementType.select => Perm.select
  | StatementType.insert => Perm.insert
  | StatementType.update => Perm.update
  | StatementType.delete => Perm.delete

/-- `Grant.whereType`: `"permissive" | "restrictive"` (optional; permissive
is the default). -/
inductive WhereType where
  | permissive
  | restrictive
deriving DecidableEq, Repr

/-- A declarative grant record.  `whereClause` models the boolean expression
the grant's `where` builder produces when applied to an expression builder
(`grant.where(expressionBuilder())`); `isGrantWithWhereClause` is
`whereClause.isSome`. -/
structure Grant where
  table : String
  schema : Option String
  forPerm : Perm
  columns : Option (List String)
  whereClause : Option Node
  whereType : Option WhereType

/-- The grant-match predicate of the table guard (src/kyselyGrants.ts lines
51-57): schema if specified, table name, and permission equal to the
statement type or `"all"`. -/
def grantMatchesTable (gr : Grant) (t : TableRef) (st : StatementType) : Bool :=
  (gr.schema.isNone || gr.schema == t.schema) && gr.table == t.name &&
    (gr.forPerm == Perm.all || gr.forPerm == Perm.ofStmt st)

/-- `expressionBuilder().or(list)`: a left fold of binary `OrNode`s (the
`ParensNode` kysely wraps around it carries no logical content and is
dropped).  The empty case never arises in the source paths. -/
def orAll : List Node → Node
  | [] => Node.valueN none
  | e :: es => es.foldl Node.orN e

/-- `expressionBuilder().and(list)`: a left fold of binary `AndNode`s. -/
def andAll : List Node → Node
  | [] => Node.valueN none
  | e :: es => es.foldl Node.andN e

/-- The expression built by a grant's `where` builder; only applied to
grants with a where clause. -/
def grantWhereExpr (gr : Grant) : Node := gr.whereClause.getD (Node.valueN none)

/-- The grant-resolved table guard (src/kyselyGrants.ts lines 50-112).
Matching grants are collected; none means `Deny`; the matches carrying
where clauses are split into restrictive and permissive (the default);
no predicates at all means plain `Allow`; restrictive-only yields
`[Allow, lit(false)]`; otherwise the permissive predicates are OR-ed and,
when restrictive ones exist, AND-ed with the AND of the restrictives. -/
def grantTableGuard (grants : List Grant) (t : TableRef) (st : StatementType) : TableDecision :=
  let allowGrants := grants.filter (fun gr => grantMatchesTable gr t st)
  if allowGrants.length = 0 then
    TableDecision.deny
  else
    let grantsWithWheres := allowGrants.filter (fun gr => gr.whereClause.isSome)
    let grantsWithRestrictiveWheres := grantsWithWheres.filter
      (fun gr => gr.whereType == some WhereType.restrictive)
    let grantsWithPermissiveWheres := grantsWithWheres.filter
      (fun gr => gr.whereType != some WhereType.restrictive)
    if grantsWithRestrictiveWheres.length = 0 ∧ grantsWithPermissiveWheres.length = 0 then
      TableDecision.allow
    else if grantsWithPermissiveWheres.length = 0 ∧ grantsWithRestrictiveWheres.length > 0 then
      -- no rows will be returned - Postgres restrictive-only row security
      TableDecision.allowWith (Node.valueN (some false))
    else
      let permissiveEbs := orAll (grantsWithPermissiveWheres.map grantWhereExpr)
      if grantsWithRestrictiveWheres.length > 0 then
        TableDecision.allowWith
          (andAll [permissiveEbs, andAll (grantsWithRestrictiveWheres.map grantWhereExpr)])
      else
        TableDecision.allowWith permissiveEbs

/-- The `grants.find` callback of the grant-resolved column guard
(src/kyselyGrants.ts lines 115-159): the grant matches schema-if-specified,
table, column set absent or containing the column, and its permission is
`"all"`, or `select` with a projection/returning or filter/join usage, or
`update` with set-clause usage, or `insert` with insert-value-list usage. -/
def grantColumnPredicate (t : TableRef) (column : String) (ctx : ColumnUsageContext)
    (gr : Grant) : Bool :=
  let rightSchemaAndTableAndColumns :=
    (gr.schema.isNone || gr.schema == t.schema) && gr.table == t.name &&
      (gr.columns.isNone || (gr.columns.getD []).contains column)
  if !rightSchemaAndTableAndColumns then false
  else if gr.forPerm == Perm.all then true
  else if gr.forPerm == Perm.select &&
      (ctx == ColumnUsageContext.selectOrReturning || ctx == ColumnUsageContext.whereOrJoin) then
    true
  else if gr.forPerm == Perm.update && ctx == ColumnUsageContext.updateSet then true
  else if gr.forPerm == Perm.insert && ctx == ColumnUsageContext.insertValues then true
  else false

/-- The grant-resolved column guard (src/kyselyGrants.ts lines 114-166):
`Allow` when some grant satisfies `grantColumnPredicate`, else `Deny`.
The `statementType` parameter is unused, exactly as in the source. -/
def grantColumnGuard (grants : List Grant) (t : TableRef) (column : String)
    (_st : StatementType) (ctx : ColumnUsageContext) : ColumnDecision :=
  match grants.find? (grantColumnPredicate t column ctx) with
  | some _ => ColumnDecision.allow
  | none => ColumnDecision.deny

/-- `createKyselyGrantGuard(grants)`: the table guard ignores the usage
context, the column guard is `grantColumnGuard`. -/
def createKyselyGrantGuard (grants : List Grant) : Guard :=
  ⟨fun t st _ctx => grantTableGuard grants t st,
   fun t col st ctx => grantColumnGuard grants t col st ctx⟩

/-- Boolean semantics of predicate expressions: `AndNode` / `OrNode` /
boolean literals are interpreted; every other node is an atom read off the
valuation.  Used to state logical-equivalence claims about resolved RLS
predicates. -/
def evalExpr (v : Node → Bool) : Node → Bool
  | Node.andN l r => evalExpr v l && evalExpr v r
  | Node.orN l r => evalExpr v l || evalExpr v r
  | Node.valueN (some b) => b
  | n => v n

/-!
Shared characterization lemmas about the grant layer.
-/

/-- What the column-guard find callback checks, as a proposition. -/
theorem grantColumnPredicate_iff (t : TableRef) (column : String)
    (ctx : ColumnUsageContext) (gr : Grant) :
    grantColumnPredicate t column ctx gr = true ↔
      ((gr.schema = none ∨ gr.schema = t.schema) ∧ gr.table = t.name ∧
        (gr.columns = none ∨ ∃ cs, gr.columns = some cs ∧ column ∈ cs) ∧
        (gr.forPerm = Perm.all ∨
          (gr.forPerm = Perm.select ∧
            (ctx = ColumnUsageContext.selectOrReturning ∨ ctx = ColumnUsageContext.whereOrJoin)) ∨
          (gr.forPerm = Perm.update ∧ ctx = ColumnUsageContext.updateSet) ∨
          (gr.forPerm = Perm.insert ∧ ctx = ColumnUsageContext.insertValues))) := by
  unfold grantColumnPredicate
  cases hcs : gr.columns with
  | none =>
      simp [hcs, Option.isNone_iff_eq_none]
      tauto
  | some cs =>
      simp [hcs, Option.isNone_iff_eq_none]
      tauto

/-!
Claims C1, C2 and C9: the grant-resolution layer.
-/

/-- An opaque atomic predicate used by counterexamples. -/
def c1pred : Node := Node.binN (Node.referenceN none (Node.columnN "c")) "=" (Node.valueN none)

/-- Grants for C1's counterexample: one blanket select grant and one select
grant carrying a (permissive) predicate, both on table `t`. -/
def c1grants : List Grant :=
  [⟨"t", none, Perm.select, none, none, none⟩,
   ⟨"t", none, Perm.select, none, some c1pred, none⟩]

/-- C1 counterexample: with a predicate-free select grant AND a select
grant carrying predicate `c1pred` on the same table, the resolved table
guard returns `Allow` with the predicate, not plain `Allow` — so "if at
least one matching grant has no predicate, it returns plain Allow" is
false on the code. -/
theorem c1_table_guard_counterexample :
    grantTableGuard c1grants ⟨none, "t"⟩ StatementType.select
      = TableDecision.allowWith c1pred ∧
    grantTableGuard c1grants ⟨none, "t"⟩ StatementType.select ≠ TableDecision.allow := by
  refine ⟨rfl, ?_⟩
  intro h
  rw [show grantTableGuard c1grants ⟨none, "t"⟩ StatementType.select
    = TableDecision.allowWith c1pred from rfl] at h
  exact TableDecision.noConfusion h

/-- C1 (amended): the grant-resolved table guard returns `Deny` exactly
when no grant matches (schema when specified, table name, permission equal
to the statement type or `"all"`), and returns plain `Allow` exactly when
at least one grant matches and no matching grant carries a predicate — a
predicate-free (blanket) grant does not override matching grants that
carry predicates. -/
theorem c1_table_guard_amended (grants : List Grant) (t : TableRef) (st : StatementType) :
    (grantTableGuard grants t st = TableDecision.deny ↔
      grants.filter (fun gr => grantMatchesTable gr t st) = []) ∧
    (grantTableGuard grants t st = TableDecision.allow ↔
      grants.filter (fun gr => grantMatchesTable gr t st) ≠ [] ∧
        ∀ gr ∈ grants.filter (fun gr => grantMatchesTable gr t st), gr.whereClause = none) := by
  by_cases h0 : (grants.filter (fun gr => grantMatchesTable gr t st)).length = 0
  · have hnil := List.length_eq_zero.mp h0
    simp [grantTableGuard, h0, hnil]
  · have hne : grants.filter (fun gr => grantMatchesTable gr t st) ≠ [] := by
      intro h; exact h0 (by simp [h])
    constructor
    · apply iff_of_false
      · intro h
        simp only [grantTableGuard] at h
        rw [if_neg h0] at h
        split_ifs at h
      · exact hne
    · constructor
      · intro h
        refine ⟨hne, ?_⟩
        simp only [grantTableGuard] at h
        rw [if_neg h0] at h
        split_ifs at h with h1 h2 h3
        obtain ⟨hr, hp⟩ := h1
        intro gr hgr
        by_contra hw
        have hsome : gr.whereClause.isSome = true := by
          cases hx : gr.whereClause with
          | none => exact absurd hx hw
          | some _ => rfl
        have hmemW : gr ∈ (grants.filter (fun gr => grantMatchesTable gr t st)).filter
            (fun gr => gr.whereClause.isSome) :=
          List.mem_filter.mpr ⟨hgr, hsome⟩
        by_cases hb : (gr.whereType == some WhereType.restrictive) = true
        · have hmemR : gr ∈ ((grants.filter (fun gr => grantMatchesTable gr t st)).filter
              (fun gr => gr.whereClause.isSome)).filter
              (fun gr => gr.whereType == some WhereType.restrictive) :=
            List.mem_filter.mpr ⟨hmemW, hb⟩
          rw [List.length_eq_zero.mp hr] at hmemR
          exact absurd hmemR (List.not_mem_nil gr)
        · have hbne : (gr.whereType != some WhereType.restrictive) = true := by
            simp [bne]
            simpa using hb
          have hmemP : gr ∈ ((grants.filter (fun gr => grantMatchesTable gr t st)).filter
              (fun gr => gr.whereClause.isSome)).filter
              (fun gr => gr.whereType != some WhereType.restrictive) :=
            List.mem_filter.mpr ⟨hmemW, hbne⟩
          rw [List.length_eq_zero.mp hp] at hmemP
          exact absurd hmemP (List.not_mem_nil gr)
      · rintro ⟨hne2, hall⟩
        have hW : (grants.filter (fun gr => grantMatchesTable gr t st)).filter
            (fun gr => gr.whereClause.isSome) = [] :=
          List.filter_eq_nil_iff.mpr (fun gr hgr => by simp [hall gr hgr])
        simp only [grantTableGuard]
        rw [if_neg h0, if_pos (by simp [hW])]

/-- C1 witness: a single predicate-free matching grant yields plain Allow,
via the amended characterization. -/
theorem c1_table_guard_witness :
    grantTableGuard [⟨"t", none, Perm.select, none, none, none⟩] ⟨none, "t"⟩
      StatementType.select = TableDecision.allow := by
  refine (c1_table_guard_amended [⟨"t", none, Perm.select, none, none, none⟩] ⟨none, "t"⟩
      StatementType.select).2.mpr ⟨?_, ?_⟩
  · simp [grantMatchesTable, Perm.ofStmt]
  · intro gr hgr
    simp [grantMatchesTable, Perm.ofStmt] at hgr
    subst hgr
    rfl

/-- C2: with permissive predicates `p1`, `p2` and restrictive predicate `r`
all matching a table, the resolved table predicate is `(p1 OR p2) AND r`
up to logical equivalence, and with only the restrictive predicate the
resolved predicate is the always-false literal. -/
theorem c2_rls_combination (tname : String) (st : StatementType) (p1 p2 r : Node) :
    (grantTableGuard
        [⟨tname, none, Perm.all, none, some p1, none⟩,
         ⟨tname, none, Perm.all, none, some p2, none⟩,
         ⟨tname, none, Perm.all, none, some r, some WhereType.restrictive⟩]
        ⟨none, tname⟩ st
       = TableDecision.allowWith (Node.andN (Node.orN p1 p2) r) ∧
     ∀ v, evalExpr v (Node.andN (Node.orN p1 p2) r)
        = ((evalExpr v p1 || evalExpr v p2) && evalExpr v r)) ∧
    (grantTableGuard [⟨tname, none, Perm.all, none, some r, some WhereType.restrictive⟩]
        ⟨none, tname⟩ st
       = TableDecision.allowWith (Node.valueN (some false)) ∧
     ∀ v, evalExpr v (Node.valueN (some false)) = false) := by
  refine ⟨⟨?_, ?_⟩, ⟨?_, ?_⟩⟩
  · simp [grantTableGuard, grantMatchesTable, grantWhereExpr, orAll, andAll]
  · intro v; simp [evalExpr]
  · simp [grantTableGuard, grantMatchesTable, grantWhereExpr, orAll, andAll]
  · intro v; simp [evalExpr]

/-- C2 witness: the combination property applied at concrete literal
predicates on table `person`. -/
theorem c2_rls_combination_witness :
    grantTableGuard
        [⟨"person", none, Perm.all, none, some (Node.valueN (some true)), none⟩,
         ⟨"person", none, Perm.all, none, some (Node.valueN (some false)), none⟩,
         ⟨"person", none, Perm.all, none, some (Node.valueN (some true)),
           some WhereType.restrictive⟩]
        ⟨none, "person"⟩ StatementType.select
      = TableDecision.allowWith
          (Node.andN (Node.orN (Node.valueN (some true)) (Node.valueN (some false)))
            (Node.valueN (some true))) :=
  (c2_rls_combination "person" StatementType.select (Node.valueN (some true))
    (Node.valueN (some false)) (Node.valueN (some true))).1.1

/-- Grants for C9's counterexample: a select grant on table `t`. -/
def c9grants : List Grant := [⟨"t", none, Perm.select, none, none, none⟩]

/-- C9 counterexample: the column guard returns `Allow` for an Insert
statement in projection/returning context although no grant's permission
is `"all"` or equal to the statement type — the guard ignores the
statement type, so "permission matches the statement type" is false on
the code. -/
theorem c9_column_guard_counterexample :
    grantColumnGuard c9grants ⟨none, "t"⟩ "c" StatementType.insert
      ColumnUsageContext.selectOrReturning = ColumnDecision.allow ∧
    ∀ gr ∈ c9grants, gr.forPerm ≠ Perm.all ∧ gr.forPerm ≠ Perm.ofStmt StatementType.insert := by
  refine ⟨rfl, ?_⟩
  intro gr hmem
  simp only [c9grants, List.mem_singleton] at hmem
  subst hmem
  exact ⟨by decide, by decide⟩

/-- C9 (amended): the grant-resolved column guard returns `Allow` exactly
when some grant matches the schema (when specified), the table, a column
set that is absent or contains the column, and whose permission is `"all"`
or compatible with the usage context alone (select grants authorize
projection/returning and filter/join usage, update grants set-clause
usage, insert grants insert-value-list usage) — the statement type is
ignored; otherwise `Deny`, and never `Omit`.  Column sets of several
matching grants act as their union, since the check is existential. -/
theorem c9_column_guard_amended (grants : List Grant) (t : TableRef) (column : String)
    (st : StatementType) (ctx : ColumnUsageContext) :
    (grantColumnGuard grants t column st ctx = ColumnDecision.allow ↔
      ∃ gr ∈ grants,
        (gr.schema = none ∨ gr.schema = t.schema) ∧ gr.table = t.name ∧
        (gr.columns = none ∨ ∃ cs, gr.columns = some cs ∧ column ∈ cs) ∧
        (gr.forPerm = Perm.all ∨
          (gr.forPerm = Perm.select ∧
            (ctx = ColumnUsageContext.selectOrReturning ∨ ctx = ColumnUsageContext.whereOrJoin)) ∨
          (gr.forPerm = Perm.update ∧ ctx = ColumnUsageContext.updateSet) ∨
          (gr.forPerm = Perm.insert ∧ ctx = ColumnUsageContext.insertValues))) ∧
    grantColumnGuard grants t column st ctx ≠ ColumnDecision.omit := by
  constructor
  · constructor
    · intro h
      unfold grantColumnGuard at h
      cases hf : grants.find? (grantColumnPredicate t column ctx) with
      | none => rw [hf] at h; exact absurd h (by simp)
      | some gr =>
          have hs : (grants.find? (grantColumnPredicate t column ctx)).isSome := by
            rw [hf]; rfl
          rw [List.find?_isSome] at hs
          obtain ⟨x, hx, hpx⟩ := hs
          exact ⟨x, hx, (grantColumnPredicate_iff t column ctx x).mp hpx⟩
    · rintro ⟨gr, hmem, hprops⟩
      have hs : ∃ x ∈ grants, grantColumnPredicate t column ctx x :=
        ⟨gr, hmem, (grantColumnPredicate_iff t column ctx gr).mpr hprops⟩
      rw [← List.find?_isSome] at hs
      unfold grantColumnGuard
      cases hf : grants.find? (grantColumnPredicate t column ctx) with
      | none => rw [hf] at hs; simp at hs
      | some _ => rfl
  · unfold grantColumnGuard
    cases grants.find? (grantColumnPredicate t column ctx) <;> simp

/-- C9 witness: an `all` grant allows any column in set-clause context,
via the amended characterization. -/
theorem c9_column_guard_witness :
    grantColumnGuard [⟨"t", none, Perm.all, none, none, none⟩] ⟨none, "t"⟩ "c"
      StatementType.select ColumnUsageContext.updateSet = ColumnDecision.allow :=
  (c9_column_guard_amended [⟨"t", none, Perm.all, none, none, none⟩] ⟨none, "t"⟩ "c"
      StatementType.select ColumnUsageContext.updateSet).1.mpr
    ⟨⟨"t", none, Perm.all, none, none, none⟩, by simp, Or.inl rfl, rfl, Or.inl rfl, Or.inl rfl⟩

/-!
Concrete demo inputs shared by several counterexample computations.
-/

/-- An all-Allow guard (also the result of filling in an empty partial
guard). -/
def allowGuard : Guard :=
  ⟨fun _ _ _ => TableDecision.allow, fun _ _ _ _ => ColumnDecision.allow⟩

/-- The `person` table node of the demo schema. -/
def personT : Node := Node.tableN none "person"

/-- The `rsvp` table node of the demo schema. -/
def rsvpT : Node := Node.tableN none "rsvp"

/-- `person.id`, qualified. -/
def personIdRef : Node := Node.referenceN (some personT) (Node.columnN "id")

/-- The join condition `rsvp.person_id = person.id`. -/
def demoOn : Node :=
  Node.onN (Node.binN (Node.referenceN (some rsvpT) (Node.columnN "person_id")) "=" personIdRef)

/-- `select person.id from person inner join rsvp on rsvp.person_id = person.id`. -/
def demoJoinSelect : Node :=
  Node.selectQueryN (some (Node.fromN [personT])) (some [Node.selectionN personIdRef])
    (some [Node.joinN rsvpT (some demoOn)]) none

/-!
Claim C6: Omit on an insert column (code bug: the value list is untouched).
-/

/-- A guard omitting the `first_name` column in insert-value-list context. -/
def c6guard : Guard :=
  ⟨fun _ _ _ => TableDecision.allow,
   fun _ c _ ctx =>
     if c = "first_name" ∧ ctx = ColumnUsageContext.insertValues then ColumnDecision.omit
     else ColumnDecision.allow⟩

/-- `insert into person (first_name, last_name) values (v1, v2)`. -/
def c6insert : Node :=
  Node.insertQueryN personT (some [Node.columnN "first_name", Node.columnN "last_name"])
    (some (Node.valuesN [Node.valueListN [Node.valueN none, Node.valueN none]])) none

/-- C6: a column guard returning Omit for `first_name` removes the column
from the insert's column list but leaves the value list untouched: the
rewritten insert has one column and still two values (invalid SQL), so the
corresponding value is NOT excluded as the claim states. -/
theorem c6_insert_omit_values_bug :
    (transformQuery c6guard 20 c6insert).result
      = Except.ok (Node.insertQueryN personT (some [Node.columnN "last_name"])
          (some (Node.valuesN [Node.valueListN [Node.valueN none, Node.valueN none]])) none) := rfl

/-!
Claim C5: Omit for a filter-clause column reference.
-/

/-- A guard omitting the `last_name` column in filter/join-condition
context. -/
def c5guard : Guard :=
  ⟨fun _ _ _ => TableDecision.allow,
   fun _ c _ ctx =>
     if c = "last_name" ∧ ctx = ColumnUsageContext.whereOrJoin then ColumnDecision.omit
     else ColumnDecision.allow⟩

/-- `select person.id from person where person.last_name = v`. -/
def c5select : Node :=
  Node.selectQueryN (some (Node.fromN [personT])) (some [Node.selectionN personIdRef]) none
    (some (Node.whereN (Node.binN (Node.referenceN (some personT) (Node.columnN "last_name"))
      "=" (Node.valueN none))))

/-- C5 counterexample: the column guard returns Omit for the filter column
`person.last_name`, yet the transformation succeeds and returns the
statement unchanged — the reference is silently kept, not an error. -/
theorem c5_filter_omit_counterexample :
    (transformQuery c5guard 20 c5select).result = Except.ok c5select ∧
    (transformQuery c5guard 20 c5select).calls
      = [GuardCall.tableCall ⟨none, "person"⟩ StatementType.select
           TableUsageContext.topLevel TableDecision.allow,
         GuardCall.columnCall ⟨none, "person"⟩ "id" StatementType.select
           ColumnUsageContext.selectOrReturning ColumnDecision.allow,
         GuardCall.columnCall ⟨none, "person"⟩ "last_name" StatementType.select
           ColumnUsageContext.whereOrJoin ColumnDecision.omit] := ⟨rfl, rfl⟩

/-!
Claim C7 counterexample: all-Allow is not the identity on every statement.
-/

/-- `select * from person` (top-level select-all). -/
def c7stmt : Node :=
  Node.selectQueryN (some (Node.fromN [personT])) (some [Node.selectionN Node.selectAllN])
    none none

/-- C7 counterexample: under the all-Allow guard a top-level select-all
statement is rejected, so the transformation is not the identity on all
statements. -/
theorem c7_identity_counterexample :
    (transformQuery allowGuard 20 c7stmt).result
      = Except.error "kysely-access-control: selection must be a reference node" ∧
    (transformQuery allowGuard 20 c7stmt).result ≠ Except.ok c7stmt := by
  refine ⟨rfl, ?_⟩
  intro h
  rw [show (transformQuery allowGuard 20 c7stmt).result
    = Except.error "kysely-access-control: selection must be a reference node" from rfl] at h
  exact Except.noConfusion h

/-!
Claim C8 counterexample: a join-table denial happens after columns were
inspected.
-/

/-- A guard denying the `rsvp` table in every context. -/
def c8guard : Guard :=
  ⟨fun t _ _ => if t.name = "rsvp" then TableDecision.deny else TableDecision.allow,
   fun _ _ _ _ => ColumnDecision.allow⟩

/-- C8 counterexample: transforming a select that joins the denied table
`rsvp` raises the denial only after the column guard was already invoked
for `person.id` — the trace shows a column inspection before the
table-level denial. -/
theorem c8_deny_order_counterexample :
    (transformQuery c8guard 20 demoJoinSelect).result
      = Except.error "JOIN denied on table rsvp" ∧
    (transformQuery c8guard 20 demoJoinSelect).calls
      = [GuardCall.tableCall ⟨none, "person"⟩ StatementType.select
           TableUsageContext.topLevel TableDecision.allow,
         GuardCall.columnCall ⟨none, "person"⟩ "id" StatementType.select
           ColumnUsageContext.selectOrReturning ColumnDecision.allow,
         GuardCall.tableCall ⟨none, "rsvp"⟩ StatementType.select
           TableUsageContext.inJoin TableDecision.deny] := ⟨rfl, rfl⟩

/-!
Claim C3 counterexample: the predicate spliced into the join subquery is
the TopLevel one, not the InJoin one.
-/

/-- The RLS predicate `rsvp.attended = v` returned only in join context. -/
def c3pred : Node :=
  Node.binN (Node.referenceN (some rsvpT) (Node.columnN "attended")) "=" (Node.valueN none)

/-- A guard answering `[Allow, c3pred]` for `rsvp` in join context but
plain `Allow` at top level. -/
def c3guard : Guard :=
  ⟨fun t _ ctx =>
     if t.name = "rsvp" ∧ ctx = TableUsageContext.inJoin then TableDecision.allowWith c3pred
     else TableDecision.allow,
   fun _ _ _ _ => ColumnDecision.allow⟩

/-- The transformed statement: the joined `rsvp` is replaced by the aliased
subquery `select * from rsvp` WITHOUT any filter. -/
def c3actualOut : Node :=
  Node.selectQueryN (some (Node.fromN [personT])) (some [Node.selectionN personIdRef])
    (some [Node.joinN
      (Node.aliasN (Node.selectQueryN (some (Node.fromN [rsvpT]))
        (some [Node.selectionN Node.selectAllN]) none none) (Node.identifierN "rsvp"))
      (some demoOn)]) none

/-- What C3 predicts: the same but with the subquery filtered by `c3pred`. -/
def c3claimedOut : Node :=
  Node.selectQueryN (some (Node.fromN [personT])) (some [Node.selectionN personIdRef])
    (some [Node.joinN
      (Node.aliasN (Node.selectQueryN (some (Node.fromN [rsvpT]))
        (some [Node.selectionN Node.selectAllN]) none (some (Node.whereN c3pred)))
        (Node.identifierN "rsvp"))
      (some demoOn)]) none

/-- C3 counterexample: when the table guard answers Allow-with-predicate in
the InJoin context but plain Allow at TopLevel, the joined table is
replaced by an UNFILTERED `select * from rsvp` subquery: the predicate the
guard returned for the join is dropped (the filter is decided by the
re-invocation of the guard at TopLevel inside the subquery).  The actual
output differs from the claimed one, and the dropped predicate is not a
tautology. -/
theorem c3_join_predicate_counterexample :
    (transformQuery c3guard 20 demoJoinSelect).result = Except.ok c3actualOut ∧
    c3actualOut ≠ c3claimedOut ∧
    evalExpr (fun _ => false) c3pred = false := by
  refine ⟨rfl, ?_, rfl⟩
  intro h
  simp [c3actualOut, c3claimedOut] at h

/-!
Trace classification: infrastructure for claim C10.
-/

/-- C10's per-call property: a column-guard call in filter/join context
carries statement type Select. -/
def whereJoinUsesSelect : GuardCall → Prop
  | GuardCall.columnCall _ _ st ctx _ =>
      ctx = ColumnUsageContext.whereOrJoin → st = StatementType.select
  | GuardCall.tableCall _ _ _ _ => True

/-- All calls in a result's trace satisfy C10's property. -/
def GoodCalls (r : Res α) : Prop := ∀ c ∈ r.calls, whereJoinUsesSelect c

theorem goodCalls_pure (a : α) : GoodCalls (pure a : Res α) := by
  intro c hc; simp at hc

theorem goodCalls_errRes (msg : String) : GoodCalls (errRes msg : Res α) := by
  intro c hc; simp [errRes] at hc

theorem goodCalls_liftE (e : Except String α) : GoodCalls (liftE e) := by
  intro c hc; simp [liftE] at hc

theorem goodCalls_bind {r : Res α} {f : α → Res β}
    (h1 : GoodCalls r) (h2 : ∀ a, GoodCalls (f a)) : GoodCalls (r >>= f) := by
  rcases r with ⟨res, cs⟩
  cases res with
  | ok a =>
      intro c hc
      simp at hc
      rcases hc with hc | hc
      · exact h1 c (by simpa using hc)
      · exact h2 a c hc
  | error e =>
      intro c hc
      exact h1 c (by simpa using hc)

theorem goodCalls_callTable (g : Guard) (t : TableRef) (st : StatementType)
    (ctx : TableUsageContext) : GoodCalls (callTable g t st ctx) := by
  intro c hc
  simp [callTable] at hc
  subst hc
  trivial

theorem goodCalls_callColumn (g : Guard) (t : TableRef) (col : String) (st : StatementType)
    (ctx : ColumnUsageContext)
    (h : ctx = ColumnUsageContext.whereOrJoin → st = StatementType.select) :
    GoodCalls (callColumn g t col st ctx) := by
  intro c hc
  simp [callColumn] at hc
  subst hc
  exact h

theorem goodCalls_callColumnFilter (g : Guard) (t : TableRef) (col : String) :
    GoodCalls (callColumn g t col StatementType.select ColumnUsageContext.whereOrJoin) :=
  goodCalls_callColumn g t col _ _ (fun _ => rfl)

theorem goodCalls_throwIfDenyT (r : TableDecision) (core : String) :
    GoodCalls (throwIfDenyT r core) := by
  cases r <;> first
    | exact goodCalls_errRes _
    | exact goodCalls_pure _

theorem goodCalls_throwIfDenyC (r : ColumnDecision) (core : String) :
    GoodCalls (throwIfDenyC r core) := by
  cases r <;> first
    | exact goodCalls_errRes _
    | exact goodCalls_pure _

theorem goodCalls_listM {f : α → Res β} (h : ∀ a, GoodCalls (f a)) :
    ∀ l, GoodCalls (listM f l)
  | [] => goodCalls_pure _
  | x :: xs =>
      goodCalls_bind (h x) (fun _ =>
        goodCalls_bind (goodCalls_listM h xs) (fun _ => goodCalls_pure _))

theorem goodCalls_optM {f : α → Res β} (h : ∀ a, GoodCalls (f a)) :
    ∀ o, GoodCalls (optM f o)
  | none => goodCalls_pure _
  | some x => goodCalls_bind (h x) (fun _ => goodCalls_pure _)

theorem goodCalls_optListM {f : α → Res β} (h : ∀ a, GoodCalls (f a)) :
    ∀ o, GoodCalls (optListM f o)
  | none => goodCalls_pure _
  | some xs => goodCalls_bind (goodCalls_listM h xs) (fun _ => goodCalls_pure _)

theorem goodCalls_selectionsLoop (g : Guard) (st : StatementType) (tn : Node) (multi : Bool) :
    ∀ sels, GoodCalls (selectionsLoop g st tn multi sels) := by
  intro sels
  induction sels with
  | nil => exact goodCalls_pure _
  | cons s rest ih =>
      unfold selectionsLoop
      split
      · apply goodCalls_bind (goodCalls_liftE _)
        intro chosen
        split
        · apply goodCalls_bind (goodCalls_callColumn _ _ _ _ _ (by simp))
          intro gr
          apply goodCalls_bind (goodCalls_throwIfDenyC _ _)
          intro _
          apply goodCalls_bind ih
          intro _
          split <;> exact goodCalls_pure _
        · exact goodCalls_errRes _
      · exact goodCalls_errRes _
      · exact goodCalls_errRes _

theorem goodCalls_transformSelectionsFn (g : Guard) (stack : List Node) (sels : List Node)
    (tn : Node) (multi : Bool) (st : StatementType) :
    GoodCalls (transformSelectionsFn g stack sels tn multi st) := by
  unfold transformSelectionsFn
  split
  · exact goodCalls_pure _
  · exact goodCalls_selectionsLoop g st tn multi sels

theorem goodCalls_insertColumnsLoop (g : Guard) (t : TableRef) :
    ∀ cols, GoodCalls (insertColumnsLoop g t cols) := by
  intro cols
  induction cols with
  | nil => exact goodCalls_pure _
  | cons c rest ih =>
      unfold insertColumnsLoop
      split
      · apply goodCalls_bind (goodCalls_callColumn _ _ _ _ _ (by simp))
        intro gr
        apply goodCalls_bind (goodCalls_throwIfDenyC _ _)
        intro _
        apply goodCalls_bind ih
        intro _
        split <;> exact goodCalls_pure _
      · exact goodCalls_errRes _

theorem goodCalls_updateSetLoop (g : Guard) (t : TableRef) :
    ∀ ups, GoodCalls (updateSetLoop g t ups) := by
  intro ups
  induction ups with
  | nil => exact goodCalls_pure _
  | cons u rest ih =>
      unfold updateSetLoop
      split
      · apply goodCalls_bind (goodCalls_callColumn _ _ _ _ _ (by simp))
        intro gr
        apply goodCalls_bind (goodCalls_throwIfDenyC _ _)
        intro _
        split
        · exact goodCalls_errRes _
        · exact ih
      · exact goodCalls_errRes _

theorem goodCalls_updateFromLoop (g : Guard) :
    ∀ froms, GoodCalls (updateFromLoop g froms) := by
  intro froms
  induction froms with
  | nil => exact goodCalls_pure _
  | cons f rest ih =>
      unfold updateFromLoop
      split
      · apply goodCalls_bind (goodCalls_callTable _ _ _ _)
        intro gr
        apply goodCalls_bind (goodCalls_throwIfDenyT _ _)
        intro _
        apply goodCalls_bind ih
        intro _
        exact goodCalls_pure _
      · apply goodCalls_bind ih
        intro _
        exact goodCalls_pure _

theorem goodCalls_usingLoop (g : Guard) :
    ∀ tables, GoodCalls (usingLoop g tables) := by
  intro tables
  induction tables with
  | nil => exact goodCalls_pure _
  | cons f rest ih =>
      unfold usingLoop
      split
      · apply goodCalls_bind (goodCalls_callTable _ _ _ _)
        intro gr
        apply goodCalls_bind (goodCalls_throwIfDenyT _ _)
        intro _
        apply goodCalls_bind ih
        intro _
        exact goodCalls_pure _
      · apply goodCalls_bind ih
        intro _
        exact goodCalls_pure _

theorem goodCalls_trSelectQuery (g : Guard) (rec : TransformFn)
    (hrec : ∀ s x, GoodCalls (rec s x)) (stack : List Node) (fromNode : Option Node)
    (selections joins : Option (List Node)) (whereNode : Option Node) :
    GoodCalls (trSelectQuery g rec stack fromNode selections joins whereNode) := by
  unfold trSelectQuery
  split
  · exact goodCalls_bind (goodCalls_optListM (fun x => hrec _ x) _) (fun _ =>
      goodCalls_bind (goodCalls_optListM (fun x => hrec _ x) _) (fun _ =>
        goodCalls_bind (goodCalls_optM (fun x => hrec _ x) _) (fun _ => goodCalls_pure _)))
  · split
    · split
      · split
        · split
          · exact goodCalls_errRes _
          · apply goodCalls_bind (goodCalls_callTable _ _ _ _)
            intro gr
            apply goodCalls_bind (goodCalls_throwIfDenyT _ _)
            intro _
            apply goodCalls_bind (goodCalls_transformSelectionsFn _ _ _ _ _ _)
            intro sels'
            apply goodCalls_bind
            · split
              · exact goodCalls_pure _
              · exact goodCalls_bind (hrec _ _) (fun _ => goodCalls_pure _)
              · exact goodCalls_errRes _
              · exact goodCalls_errRes _
            · intro newWhere
              exact goodCalls_bind (hrec _ _) (fun _ =>
                goodCalls_bind (goodCalls_optListM (fun x => hrec _ x) _) (fun _ =>
                  goodCalls_bind (goodCalls_optListM (fun x => hrec _ x) _) (fun _ =>
                    goodCalls_bind (goodCalls_optM (fun x => hrec _ x) _) (fun _ =>
                      goodCalls_pure _))))
        · exact goodCalls_errRes _
      · exact goodCalls_errRes _
    · exact goodCalls_errRes _

theorem goodCalls_trInsertQuery (g : Guard) (rec : TransformFn)
    (hrec : ∀ s x, GoodCalls (rec s x)) (stack : List Node) (into : Node)
    (columns : Option (List Node)) (values returning : Option Node) :
    GoodCalls (trInsertQuery g rec stack into columns values returning) := by
  unfold trInsertQuery
  split
  · apply goodCalls_bind (goodCalls_callTable _ _ _ _)
    intro gr
    apply goodCalls_bind (goodCalls_throwIfDenyT _ _)
    intro _
    split
    · exact goodCalls_bind (hrec _ _) (fun _ =>
        goodCalls_bind (goodCalls_optM (fun x => hrec _ x) _) (fun _ =>
          goodCalls_bind (goodCalls_optM (fun x => hrec _ x) _) (fun _ => goodCalls_pure _)))
    · apply goodCalls_bind (goodCalls_insertColumnsLoop _ _ _)
      intro cols2
      exact goodCalls_bind (hrec _ _) (fun _ =>
        goodCalls_bind (goodCalls_optListM (fun x => hrec _ x) _) (fun _ =>
          goodCalls_bind (goodCalls_optM (fun x => hrec _ x) _) (fun _ =>
            goodCalls_bind (goodCalls_optM (fun x => hrec _ x) _) (fun _ => goodCalls_pure _))))
  · exact goodCalls_errRes _

theorem goodCalls_trUpdateQuery (g : Guard) (rec : TransformFn)
    (hrec : ∀ s x, GoodCalls (rec s x)) (stack : List Node) (table : Node)
    (fromNode : Option Node) (updates : Option (List Node))
    (whereNode returning : Option Node) :
    GoodCalls (trUpdateQuery g rec stack table fromNode updates whereNode returning) := by
  unfold trUpdateQuery
  split
  · apply goodCalls_bind (goodCalls_callTable _ _ _ _)
    intro gr
    apply goodCalls_bind (goodCalls_throwIfDenyT _ _)
    intro _
    apply goodCalls_bind
    · split
      · exact goodCalls_updateSetLoop _ _ _
      · exact goodCalls_pure _
    · intro _
      apply goodCalls_bind
      · split
        · exact goodCalls_pure _
        · exact goodCalls_bind (hrec _ _) (fun _ => goodCalls_pure _)
        · exact goodCalls_errRes _
        · exact goodCalls_errRes _
      · intro newWhere
        exact goodCalls_bind (hrec _ _) (fun _ =>
          goodCalls_bind (goodCalls_optM (fun x => hrec _ x) _) (fun _ =>
            goodCalls_bind (goodCalls_optListM (fun x => hrec _ x) _) (fun _ =>
              goodCalls_bind (goodCalls_optM (fun x => hrec _ x) _) (fun _ =>
                goodCalls_bind (goodCalls_optM (fun x => hrec _ x) _) (fun _ =>
                  goodCalls_pure _)))))
  · exact goodCalls_errRes _

theorem goodCalls_trDeleteQuery (g : Guard) (rec : TransformFn)
    (hrec : ∀ s x, GoodCalls (rec s x)) (stack : List Node) (fromNode : Node)
    (usingNode whereNode returning : Option Node) :
    GoodCalls (trDeleteQuery g rec stack fromNode usingNode whereNode returning) := by
  unfold trDeleteQuery
  split
  · split
    · split
      · apply goodCalls_bind (goodCalls_callTable _ _ _ _)
        intro gr
        apply goodCalls_bind (goodCalls_throwIfDenyT _ _)
        intro _
        exact goodCalls_bind (hrec _ _) (fun _ =>
          goodCalls_bind (goodCalls_optM (fun x => hrec _ x) _) (fun _ =>
            goodCalls_bind (goodCalls_optM (fun x => hrec _ x) _) (fun _ =>
              goodCalls_bind (goodCalls_optM (fun x => hrec _ x) _) (fun _ =>
                goodCalls_pure _))))
      · exact goodCalls_errRes _
    · exact goodCalls_errRes _
  · exact goodCalls_errRes _

theorem goodCalls_trReturning (g : Guard) (rec : TransformFn)
    (hrec : ∀ s x, GoodCalls (rec s x)) (stack : List Node) (selections : List Node) :
    GoodCalls (trReturning g rec stack selections) := by
  unfold trReturning
  split
  · exact goodCalls_errRes _
  · split
    · split
      · exact goodCalls_bind (goodCalls_transformSelectionsFn _ _ _ _ _ _) (fun _ =>
          goodCalls_bind (goodCalls_listM (fun x => hrec _ x) _) (fun _ => goodCalls_pure _))
      · exact goodCalls_errRes _
    · split
      · exact goodCalls_bind (goodCalls_transformSelectionsFn _ _ _ _ _ _) (fun _ =>
          goodCalls_bind (goodCalls_listM (fun x => hrec _ x) _) (fun _ => goodCalls_pure _))
      · exact goodCalls_errRes _
    · split
      · split
        · exact goodCalls_bind (goodCalls_transformSelectionsFn _ _ _ _ _ _) (fun _ =>
            goodCalls_bind (goodCalls_listM (fun x => hrec _ x) _) (fun _ => goodCalls_pure _))
        · exact goodCalls_errRes _
      · exact goodCalls_errRes _
    · exact goodCalls_errRes _

theorem goodCalls_trJoin (g : Guard) (rec : TransformFn)
    (hrec : ∀ s x, GoodCalls (rec s x)) (stack : List Node) (table : Node)
    (onNode : Option Node) :
    GoodCalls (trJoin g rec stack table onNode) := by
  unfold trJoin
  split
  · apply goodCalls_bind (goodCalls_callTable _ _ _ _)
    intro gr
    apply goodCalls_bind (goodCalls_throwIfDenyT _ _)
    intro _
    split
    · exact goodCalls_bind (hrec _ _) (fun _ =>
        goodCalls_bind (goodCalls_optM (fun x => hrec _ x) _) (fun _ => goodCalls_pure _))
    · exact goodCalls_bind (hrec _ _) (fun _ =>
        goodCalls_bind (goodCalls_optM (fun x => hrec _ x) _) (fun _ => goodCalls_pure _))
  · exact goodCalls_bind (hrec _ _) (fun _ =>
      goodCalls_bind (goodCalls_optM (fun x => hrec _ x) _) (fun _ => goodCalls_pure _))

theorem goodCalls_trFrom (g : Guard) (rec : TransformFn)
    (hrec : ∀ s x, GoodCalls (rec s x)) (stack : List Node) (froms : List Node) :
    GoodCalls (trFrom g rec stack froms) := by
  unfold trFrom
  split
  · exact goodCalls_bind (goodCalls_updateFromLoop _ _) (fun _ =>
      goodCalls_bind (goodCalls_listM (fun x => hrec _ x) _) (fun _ => goodCalls_pure _))
  · exact goodCalls_bind (goodCalls_listM (fun x => hrec _ x) _) (fun _ => goodCalls_pure _)

theorem goodCalls_trUsing (g : Guard) (rec : TransformFn)
    (hrec : ∀ s x, GoodCalls (rec s x)) (stack : List Node) (tables : List Node) :
    GoodCalls (trUsing g rec stack tables) := by
  unfold trUsing
  split
  · exact goodCalls_bind (goodCalls_usingLoop _ _) (fun _ =>
      goodCalls_bind (goodCalls_listM (fun x => hrec _ x) _) (fun _ => goodCalls_pure _))
  · exact goodCalls_bind (goodCalls_listM (fun x => hrec _ x) _) (fun _ => goodCalls_pure _)

theorem goodCalls_trReference (g : Guard) (rec : TransformFn)
    (hrec : ∀ s x, GoodCalls (rec s x)) (stack : List Node) (qualifier : Option Node)
    (column : Node) :
    GoodCalls (trReference g rec stack qualifier column) := by
  simp only [trReference]
  by_cases h : (!(stack.any Node.isWhereN) && !(stack.any Node.isJoinN)) = true
  · rw [if_pos h]
    exact goodCalls_bind (goodCalls_optM (fun x => hrec _ x) _) (fun _ =>
      goodCalls_bind (hrec _ _) (fun _ => goodCalls_pure _))
  · rw [if_neg h]
    apply goodCalls_bind (goodCalls_liftE _)
    intro tbl
    split
    · split
      · apply goodCalls_bind (goodCalls_callColumnFilter _ _ _)
        intro gr
        apply goodCalls_bind (goodCalls_throwIfDenyC _ _)
        intro _
        exact goodCalls_bind (goodCalls_optM (fun x => hrec _ x) _) (fun _ =>
          goodCalls_bind (hrec _ _) (fun _ => goodCalls_pure _))
      · exact goodCalls_errRes _
    · exact goodCalls_errRes _

theorem goodCalls_transformNode (g : Guard) :
    ∀ fuel stack n, GoodCalls (transformNode g fuel stack n) := by
  intro fuel
  induction fuel with
  | zero => intro stack n; exact goodCalls_errRes _
  | succ f ih =>
      intro stack n
      cases n with
      | tableN sch nm => exact goodCalls_pure _
      | columnN nm => exact goodCalls_pure _
      | selectAllN => exact goodCalls_pure _
      | identifierN nm => exact goodCalls_pure _
      | valueN v => exact goodCalls_pure _
      | selectionN sel =>
          exact goodCalls_bind (ih _ _) (fun _ => goodCalls_pure _)
      | onN e =>
          exact goodCalls_bind (ih _ _) (fun _ => goodCalls_pure _)
      | whereN e =>
          exact goodCalls_bind (ih _ _) (fun _ => goodCalls_pure _)
      | aliasN inner al =>
          exact goodCalls_bind (ih _ _) (fun _ =>
            goodCalls_bind (ih _ _) (fun _ => goodCalls_pure _))
      | andN l r =>
          exact goodCalls_bind (ih _ _) (fun _ =>
            goodCalls_bind (ih _ _) (fun _ => goodCalls_pure _))
      | orN l r =>
          exact goodCalls_bind (ih _ _) (fun _ =>
            goodCalls_bind (ih _ _) (fun _ => goodCalls_pure _))
      | binN l op r =>
          exact goodCalls_bind (ih _ _) (fun _ =>
            goodCalls_bind (ih _ _) (fun _ => goodCalls_pure _))
      | columnUpdateN c v =>
          exact goodCalls_bind (ih _ _) (fun _ =>
            goodCalls_bind (ih _ _) (fun _ => goodCalls_pure _))
      | valuesN ls =>
          exact goodCalls_bind (goodCalls_listM (fun x => ih _ x) _)
            (fun _ => goodCalls_pure _)
      | valueListN vs =>
          exact goodCalls_bind (goodCalls_listM (fun x => ih _ x) _)
            (fun _ => goodCalls_pure _)
      | selectQueryN fromNode selections joins whereNode =>
          exact goodCalls_trSelectQuery g _ (fun s x => ih s x) _ _ _ _ _
      | insertQueryN into columns values returning =>
          exact goodCalls_trInsertQuery g _ (fun s x => ih s x) _ _ _ _ _
      | updateQueryN table fromNode updates whereNode returning =>
          exact goodCalls_trUpdateQuery g _ (fun s x => ih s x) _ _ _ _ _ _
      | deleteQueryN fromNode usingNode whereNode returning =>
          exact goodCalls_trDeleteQuery g _ (fun s x => ih s x) _ _ _ _ _
      | returningN selections =>
          exact goodCalls_trReturning g _ (fun s x => ih s x) _ _
      | joinN table onNode =>
          exact goodCalls_trJoin g _ (fun s x => ih s x) _ _ _
      | fromN froms =>
          exact goodCalls_trFrom g _ (fun s x => ih s x) _ _
      | usingN tables =>
          exact goodCalls_trUsing g _ (fun s x => ih s x) _ _
      | referenceN qualifier column =>
          exact goodCalls_trReference g _ (fun s x => ih s x) _ _ _


/-!
Claim C10: filter/join-condition column references are authorized with
statement type Select.
-/

/-- C10: every column-guard invocation the engine makes in
filter/join-condition context (`ColumnInWhereOrJoin`) carries statement
type Select, for every guard, every fuel and every statement — a filter
column of an Update or Delete statement is authorized as select usage. -/
theorem c10_filter_columns_statement_select (g : Guard) (fuel : Nat) (n : Node) :
    ∀ c ∈ (transformQuery g fuel n).calls, whereJoinUsesSelect c :=
  goodCalls_transformNode g fuel [] n

/-- `update person set first_name = v where person.last_name = v2`. -/
def c10update : Node :=
  Node.updateQueryN personT none
    (some [Node.columnUpdateN (Node.columnN "first_name") (Node.valueN none)])
    (some (Node.whereN (Node.binN (Node.referenceN (some personT) (Node.columnN "last_name"))
      "=" (Node.valueN none))))
    none

/-- C10 witness: the filter column of a concrete Update statement is
guarded with `(Select, ColumnInWhereOrJoin)`, and C10 applies to that
recorded call. -/
theorem c10_filter_columns_witness :
    GuardCall.columnCall ⟨none, "person"⟩ "last_name" StatementType.select
        ColumnUsageContext.whereOrJoin ColumnDecision.allow
      ∈ (transformQuery allowGuard 20 c10update).calls ∧
    whereJoinUsesSelect (GuardCall.columnCall ⟨none, "person"⟩ "last_name"
      StatementType.select ColumnUsageContext.whereOrJoin ColumnDecision.allow) :=
  have hmem : GuardCall.columnCall ⟨none, "person"⟩ "last_name" StatementType.select
      ColumnUsageContext.whereOrJoin ColumnDecision.allow
      ∈ (transformQuery allowGuard 20 c10update).calls := by
    rw [show (transformQuery allowGuard 20 c10update).calls
      = [GuardCall.tableCall ⟨none, "person"⟩ StatementType.update TableUsageContext.topLevel
           TableDecision.allow,
         GuardCall.columnCall ⟨none, "person"⟩ "first_name" StatementType.update
           ColumnUsageContext.updateSet ColumnDecision.allow,
         GuardCall.columnCall ⟨none, "person"⟩ "last_name" StatementType.select
           ColumnUsageContext.whereOrJoin ColumnDecision.allow] from rfl]
    simp
  ⟨hmem, c10_filter_columns_statement_select allowGuard 20 c10update _ hmem⟩

/-!
Claim C8: table-level denial versus column inspection.
-/

/-- Whether a table decision is a denial (`Deny` or `[Deny, reason]`). -/
def TableDecision.isDenyD : TableDecision → Bool
  | TableDecision.deny => true
  | TableDecision.denyWith _ => true
  | _ => false

/-- The error message `throwIfDenyWithReason` raises for a denial. -/
def denyMsgT (core : String) : TableDecision → String
  | TableDecision.denyWith reason => core ++ ": " ++ reason
  | _ => core

/-- Whether a trace entry is a column-guard call. -/
def GuardCall.isColumnCall : GuardCall → Bool
  | GuardCall.columnCall _ _ _ _ _ => true
  | _ => false

/-- C8 (amended): for each of the four statement kinds, when the table
guard denies the statement's PRIMARY (top-level) table, the transformation
raises the denial before any column guard is invoked: the result is the
denial error and the trace contains no column call at all.  (For tables
touched only through a join the original claim fails: columns of the
select list are inspected before the join table's denial, see the
counterexample.) -/
theorem c8_top_level_deny_amended :
    (∀ (g : Guard) (sch : Option String) (nm : String) (sels : List Node)
        (joins : Option (List Node)) (w : Option Node) (fuel : Nat), 1 ≤ fuel →
      (g.table ⟨sch, nm⟩ StatementType.select TableUsageContext.topLevel).isDenyD = true →
      (transformQuery g fuel (Node.selectQueryN (some (Node.fromN [Node.tableN sch nm]))
          (some sels) joins w)).result
        = Except.error (denyMsgT ("SELECT denied on table " ++ tableErrName ⟨sch, nm⟩)
            (g.table ⟨sch, nm⟩ StatementType.select TableUsageContext.topLevel)) ∧
      ∀ c ∈ (transformQuery g fuel (Node.selectQueryN (some (Node.fromN [Node.tableN sch nm]))
          (some sels) joins w)).calls, c.isColumnCall = false) ∧
    (∀ (g : Guard) (sch : Option String) (nm : String) (cols : Option (List Node))
        (vals ret : Option Node) (fuel : Nat), 1 ≤ fuel →
      (g.table ⟨sch, nm⟩ StatementType.insert TableUsageContext.topLevel).isDenyD = true →
      (transformQuery g fuel (Node.insertQueryN (Node.tableN sch nm) cols vals ret)).result
        = Except.error (denyMsgT ("INSERT denied on table " ++ tableErrName ⟨sch, nm⟩)
            (g.table ⟨sch, nm⟩ StatementType.insert TableUsageContext.topLevel)) ∧
      ∀ c ∈ (transformQuery g fuel (Node.insertQueryN (Node.tableN sch nm) cols vals ret)).calls,
        c.isColumnCall = false) ∧
    (∀ (g : Guard) (sch : Option String) (nm : String) (fr : Option Node)
        (ups : Option (List Node)) (w ret : Option Node) (fuel : Nat), 1 ≤ fuel →
      (g.table ⟨sch, nm⟩ StatementType.update TableUsageContext.topLevel).isDenyD = true →
      (transformQuery g fuel (Node.updateQueryN (Node.tableN sch nm) fr ups w ret)).result
        = Except.error (denyMsgT ("UPDATE denied on table " ++ tableErrName ⟨sch, nm⟩)
            (g.table ⟨sch, nm⟩ StatementType.update TableUsageContext.topLevel)) ∧
      ∀ c ∈ (transformQuery g fuel (Node.updateQueryN (Node.tableN sch nm) fr ups w ret)).calls,
        c.isColumnCall = false) ∧
    (∀ (g : Guard) (sch : Option String) (nm : String) (us w ret : Option Node) (fuel : Nat),
        1 ≤ fuel →
      (g.table ⟨sch, nm⟩ StatementType.delete TableUsageContext.topLevel).isDenyD = true →
      (transformQuery g fuel
          (Node.deleteQueryN (Node.fromN [Node.tableN sch nm]) us w ret)).result
        = Except.error (denyMsgT ("DELETE denied on table " ++ tableErrName ⟨sch, nm⟩)
            (g.table ⟨sch, nm⟩ StatementType.delete TableUsageContext.topLevel)) ∧
      ∀ c ∈ (transformQuery g fuel
          (Node.deleteQueryN (Node.fromN [Node.tableN sch nm]) us w ret)).calls,
        c.isColumnCall = false) := by
  refine ⟨?_, ?_, ?_, ?_⟩
  · intro g sch nm sels joins w fuel hf hd
    obtain ⟨f, rfl⟩ : ∃ f, fuel = f + 1 := ⟨fuel - 1, by omega⟩
    cases hD : g.table ⟨sch, nm⟩ StatementType.select TableUsageContext.topLevel with
    | allow => rw [hD] at hd; exact absurd hd (by simp [TableDecision.isDenyD])
    | allowWith p => rw [hD] at hd; exact absurd hd (by simp [TableDecision.isDenyD])
    | deny => constructor <;>
        simp [transformQuery, transformNode, trSelectQuery, callTable, hD, throwIfDenyT,
          denyMsgT, GuardCall.isColumnCall]
    | denyWith reason => constructor <;>
        simp [transformQuery, transformNode, trSelectQuery, callTable, hD, throwIfDenyT,
          denyMsgT, GuardCall.isColumnCall]
  · intro g sch nm cols vals ret fuel hf hd
    obtain ⟨f, rfl⟩ : ∃ f, fuel = f + 1 := ⟨fuel - 1, by omega⟩
    cases hD : g.table ⟨sch, nm⟩ StatementType.insert TableUsageContext.topLevel with
    | allow => rw [hD] at hd; exact absurd hd (by simp [TableDecision.isDenyD])
    | allowWith p => rw [hD] at hd; exact absurd hd (by simp [TableDecision.isDenyD])
    | deny => constructor <;>
        simp [transformQuery, transformNode, trInsertQuery, callTable, hD, throwIfDenyT,
          denyMsgT, GuardCall.isColumnCall]
    | denyWith reason => constructor <;>
        simp [transformQuery, transformNode, trInsertQuery, callTable, hD, throwIfDenyT,
          denyMsgT, GuardCall.isColumnCall]
  · intro g sch nm fr ups w ret fuel hf hd
    obtain ⟨f, rfl⟩ : ∃ f, fuel = f + 1 := ⟨fuel - 1, by omega⟩
    cases hD : g.table ⟨sch, nm⟩ StatementType.update TableUsageContext.topLevel with
    | allow => rw [hD] at hd; exact absurd hd (by simp [TableDecision.isDenyD])
    | allowWith p => rw [hD] at hd; exact absurd hd (by simp [TableDecision.isDenyD])
    | deny => constructor <;>
        simp [transformQuery, transformNode, trUpdateQuery, callTable, hD, throwIfDenyT,
          denyMsgT, GuardCall.isColumnCall]
    | denyWith reason => constructor <;>
        simp [transformQuery, transformNode, trUpdateQuery, callTable, hD, throwIfDenyT,
          denyMsgT, GuardCall.isColumnCall]
  · intro g sch nm us w ret fuel hf hd
    obtain ⟨f, rfl⟩ : ∃ f, fuel = f + 1 := ⟨fuel - 1, by omega⟩
    cases hD : g.table ⟨sch, nm⟩ StatementType.delete TableUsageContext.topLevel with
    | allow => rw [hD] at hd; exact absurd hd (by simp [TableDecision.isDenyD])
    | allowWith p => rw [hD] at hd; exact absurd hd (by simp [TableDecision.isDenyD])
    | deny => constructor <;>
        simp [transformQuery, transformNode, trDeleteQuery, callTable, hD, throwIfDenyT,
          denyMsgT, GuardCall.isColumnCall]
    | denyWith reason => constructor <;>
        simp [transformQuery, transformNode, trDeleteQuery, callTable, hD, throwIfDenyT,
          denyMsgT, GuardCall.isColumnCall]

/-- C8 witness: a top-level select from a denied table errors with the
denial, via the amended theorem at a concrete guard and statement. -/
theorem c8_top_level_deny_witness :
    (transformQuery c8guard 5 (Node.selectQueryN (some (Node.fromN [Node.tableN none "rsvp"]))
        (some [Node.selectionN (Node.referenceN (some rsvpT) (Node.columnN "id"))])
        none none)).result
      = Except.error (denyMsgT ("SELECT denied on table " ++ tableErrName ⟨none, "rsvp"⟩)
          (c8guard.table ⟨none, "rsvp"⟩ StatementType.select TableUsageContext.topLevel)) :=
  (c8_top_level_deny_amended.1 c8guard none "rsvp"
    [Node.selectionN (Node.referenceN (some rsvpT) (Node.columnN "id"))] none none 5
    (by omega) rfl).1

/-- C5 (amended): a column guard returning Omit for a column reference in
filter/join-condition position is treated exactly like Allow: the
transformation of the reference succeeds and the reference is kept
unchanged (only Deny aborts).  `rec` is the recursive transform; its two
child rebuilds are identities on table and column leaves, as in the
engine. -/
theorem c5_filter_omit_amended (g : Guard) (rec : TransformFn) (stack : List Node)
    (sch : Option String) (nm : String) (c : String)
    (hW : stack.any Node.isWhereN = true ∨ stack.any Node.isJoinN = true)
    (homit : g.column ⟨sch, nm⟩ c StatementType.select ColumnUsageContext.whereOrJoin
      = ColumnDecision.omit)
    (htab : rec stack (Node.tableN sch nm) = pure (Node.tableN sch nm))
    (hcol : rec stack (Node.columnN c) = pure (Node.columnN c)) :
    (trReference g rec stack (some (Node.tableN sch nm)) (Node.columnN c)).result
      = Except.ok (Node.referenceN (some (Node.tableN sch nm)) (Node.columnN c)) := by
  have hcond : (!(stack.any Node.isWhereN) && !(stack.any Node.isJoinN)) = false := by
    rcases hW with h | h <;> simp [h]
  simp [trReference, hcond, callColumn, homit, throwIfDenyC, optM, htab, hcol]

/-- C5 witness: the amended behaviour at the concrete guard of the
counterexample, inside a where clause. -/
theorem c5_filter_omit_witness :
    (trReference c5guard (fun s x => transformNode c5guard 5 s x)
        [Node.whereN (Node.valueN none)] (some (Node.tableN none "person"))
        (Node.columnN "last_name")).result
      = Except.ok (Node.referenceN (some (Node.tableN none "person"))
          (Node.columnN "last_name")) :=
  c5_filter_omit_amended c5guard (fun s x => transformNode c5guard 5 s x)
    [Node.whereN (Node.valueN none)] none "person" "last_name"
    (Or.inl rfl) rfl rfl rfl

end KAC

namespace KAC

/-- An all-Allow guard, pointwise. -/
def AllAllow (g : Guard) : Prop :=
  (∀ t st ctx, g.table t st ctx = TableDecision.allow) ∧
  (∀ t c st ctx, g.column t c st ctx = ColumnDecision.allow)

theorem pure_result_ok {a b : α} (h : (pure a : Res α).result = Except.ok b) : b = a := by
  simpa using h.symm

theorem errRes_result_not_ok {msg : String} {b : α} (h : (errRes msg : Res α).result = Except.ok b) :
    False := by
  simp [errRes] at h

theorem listM_result_ok_id {f : α → Res α} {l out : List α}
    (hf : ∀ x ∈ l, ∀ y, (f x).result = Except.ok y → y = x)
    (h : (listM f l).result = Except.ok out) : out = l := by
  induction l generalizing out with
  | nil =>
      unfold listM at h
      exact pure_result_ok h
  | cons x xs ih =>
      unfold listM at h
      obtain ⟨y, hy, h⟩ := Res.bind_result_ok h
      obtain ⟨ys, hys, h⟩ := Res.bind_result_ok h
      have h1 : y = x := hf x (by simp) y hy
      have h2 : ys = xs := ih (fun z hz => hf z (by simp [hz])) hys
      rw [pure_result_ok h, h1, h2]

theorem optM_result_ok_id {f : α → Res α} {o out : Option α}
    (hf : ∀ x, o = some x → ∀ y, (f x).result = Except.ok y → y = x)
    (h : (optM f o).result = Except.ok out) : out = o := by
  cases o with
  | none =>
      unfold optM at h
      exact pure_result_ok h
  | some x =>
      unfold optM at h
      obtain ⟨y, hy, h⟩ := Res.bind_result_ok h
      rw [pure_result_ok h, hf x rfl y hy]

theorem optListM_result_ok_id {f : α → Res α} {o out : Option (List α)}
    (hf : ∀ x xs, o = some xs → x ∈ xs → ∀ y, (f x).result = Except.ok y → y = x)
    (h : (optListM f o).result = Except.ok out) : out = o := by
  cases o with
  | none =>
      unfold optListM at h
      exact pure_result_ok h
  | some xs =>
      unfold optListM at h
      obtain ⟨ys, hys, h⟩ := Res.bind_result_ok h
      rw [pure_result_ok h, listM_result_ok_id (fun x hx => hf x xs rfl hx) hys]

theorem selectionsLoop_allow_id {g : Guard} (hg : AllAllow g) (st : StatementType)
    (tn : Node) (multi : Bool) :
    ∀ sels out, (selectionsLoop g st tn multi sels).result = Except.ok out → out = sels := by
  intro sels
  induction sels with
  | nil =>
      intro out h
      unfold selectionsLoop at h
      exact pure_result_ok h
  | cons s rest ih =>
      intro out h
      unfold selectionsLoop at h
      split at h
      · obtain ⟨chosen, hch, h⟩ := Res.bind_result_ok h
        split at h
        · obtain ⟨gr, hgr, h⟩ := Res.bind_result_ok h
          have hgr' : gr = ColumnDecision.allow := by
            simpa [callColumn, hg.2] using hgr.symm
          subst hgr'
          obtain ⟨u, hu, h⟩ := Res.bind_result_ok h
          obtain ⟨rest', hrest, h⟩ := Res.bind_result_ok h
          rw [if_neg (by simp)] at h
          rw [pure_result_ok h, ih rest' hrest]
        · exact absurd h errRes_result_not_ok
      · exact absurd h errRes_result_not_ok
      · exact absurd h errRes_result_not_ok

theorem transformSelectionsFn_allow_id {g : Guard} (hg : AllAllow g) (stack : List Node)
    (sels : List Node) (tn : Node) (multi : Bool) (st : StatementType) (out : List Node)
    (h : (transformSelectionsFn g stack sels tn multi st).result = Except.ok out) :
    out = sels := by
  unfold transformSelectionsFn at h
  split at h
  · exact pure_result_ok h
  · exact selectionsLoop_allow_id hg st tn multi sels out h

theorem insertColumnsLoop_allow_id {g : Guard} (hg : AllAllow g) (t : TableRef) :
    ∀ cols out, (insertColumnsLoop g t cols).result = Except.ok out → out = cols := by
  intro cols
  induction cols with
  | nil =>
      intro out h
      unfold insertColumnsLoop at h
      exact pure_result_ok h
  | cons c rest ih =>
      intro out h
      unfold insertColumnsLoop at h
      split at h
      · obtain ⟨gr, hgr, h⟩ := Res.bind_result_ok h
        have hgr' : gr = ColumnDecision.allow := by
          simpa [callColumn, hg.2] using hgr.symm
        subst hgr'
        obtain ⟨u, hu, h⟩ := Res.bind_result_ok h
        obtain ⟨rest', hrest, h⟩ := Res.bind_result_ok h
        rw [if_neg (by simp)] at h
        rw [pure_result_ok h, ih rest' hrest]
      · exact absurd h errRes_result_not_ok

theorem updateFromLoop_allow_id {g : Guard} (hg : AllAllow g) :
    ∀ froms out, (updateFromLoop g froms).result = Except.ok out → out = froms := by
  intro froms
  induction froms with
  | nil =>
      intro out h
      unfold updateFromLoop at h
      exact pure_result_ok h
  | cons f rest ih =>
      intro out h
      unfold updateFromLoop at h
      split at h
      · obtain ⟨gr, hgr, h⟩ := Res.bind_result_ok h
        have hgr' : gr = TableDecision.allow := by
          simpa [callTable, hg.1] using hgr.symm
        subst hgr'
        obtain ⟨u, hu, h⟩ := Res.bind_result_ok h
        obtain ⟨rest', hrest, h⟩ := Res.bind_result_ok h
        rw [pure_result_ok h, ih rest' hrest]
      · obtain ⟨rest', hrest, h⟩ := Res.bind_result_ok h
        rw [pure_result_ok h, ih rest' hrest]

theorem usingLoop_allow_id {g : Guard} (hg : AllAllow g) :
    ∀ tables out, (usingLoop g tables).result = Except.ok out → out = tables := by
  intro tables
  induction tables with
  | nil =>
      intro out h
      unfold usingLoop at h
      exact pure_result_ok h
  | cons f rest ih =>
      intro out h
      unfold usingLoop at h
      split at h
      · obtain ⟨gr, hgr, h⟩ := Res.bind_result_ok h
        have hgr' : gr = TableDecision.allow := by
          simpa [callTable, hg.1] using hgr.symm
        subst hgr'
        obtain ⟨u, hu, h⟩ := Res.bind_result_ok h
        obtain ⟨rest', hrest, h⟩ := Res.bind_result_ok h
        rw [pure_result_ok h, ih rest' hrest]
      · obtain ⟨rest', hrest, h⟩ := Res.bind_result_ok h
        rw [pure_result_ok h, ih rest' hrest]

end KAC

namespace KAC

theorem trJoin_allow_id {g : Guard} (hg : AllAllow g) (rec : TransformFn)
    (hrec : ∀ s x y, (rec s x).result = Except.ok y → y = x)
    (stack : List Node) (table : Node) (onNode : Option Node) (out : Node)
    (h : (trJoin g rec stack table onNode).result = Except.ok out) :
    out = Node.joinN table onNode := by
  unfold trJoin at h
  split at h
  · obtain ⟨gr, hgr, h⟩ := Res.bind_result_ok h
    have hgr' : gr = TableDecision.allow := by simpa [callTable, hg.1] using hgr.symm
    subst hgr'
    obtain ⟨u, hu, h⟩ := Res.bind_result_ok h
    obtain ⟨tb', htb, h⟩ := Res.bind_result_ok h
    obtain ⟨on', hon, h⟩ := Res.bind_result_ok h
    rw [pure_result_ok h, hrec _ _ _ htb,
      optM_result_ok_id (fun x hx y hy => hrec _ _ _ hy) hon]
  · obtain ⟨tb', htb, h⟩ := Res.bind_result_ok h
    obtain ⟨on', hon, h⟩ := Res.bind_result_ok h
    rw [pure_result_ok h, hrec _ _ _ htb,
      optM_result_ok_id (fun x hx y hy => hrec _ _ _ hy) hon]

theorem trFrom_allow_id {g : Guard} (hg : AllAllow g) (rec : TransformFn)
    (hrec : ∀ s x y, (rec s x).result = Except.ok y → y = x)
    (stack : List Node) (froms : List Node) (out : Node)
    (h : (trFrom g rec stack froms).result = Except.ok out) :
    out = Node.fromN froms := by
  unfold trFrom at h
  split at h
  · obtain ⟨newFroms, hnf, h⟩ := Res.bind_result_ok h
    obtain ⟨froms', hfs, h⟩ := Res.bind_result_ok h
    rw [pure_result_ok h, listM_result_ok_id (fun x hx y hy => hrec _ _ _ hy) hfs,
      updateFromLoop_allow_id hg froms newFroms hnf]
  · obtain ⟨froms', hfs, h⟩ := Res.bind_result_ok h
    rw [pure_result_ok h, listM_result_ok_id (fun x hx y hy => hrec _ _ _ hy) hfs]

theorem trUsing_allow_id {g : Guard} (hg : AllAllow g) (rec : TransformFn)
    (hrec : ∀ s x y, (rec s x).result = Except.ok y → y = x)
    (stack : List Node) (tables : List Node) (out : Node)
    (h : (trUsing g rec stack tables).result = Except.ok out) :
    out = Node.usingN tables := by
  unfold trUsing at h
  split at h
  · obtain ⟨newTables, hnt, h⟩ := Res.bind_result_ok h
    obtain ⟨tables', hts, h⟩ := Res.bind_result_ok h
    rw [pure_result_ok h, listM_result_ok_id (fun x hx y hy => hrec _ _ _ hy) hts,
      usingLoop_allow_id hg tables newTables hnt]
  · obtain ⟨tables', hts, h⟩ := Res.bind_result_ok h
    rw [pure_result_ok h, listM_result_ok_id (fun x hx y hy => hrec _ _ _ hy) hts]

theorem trReference_allow_id {g : Guard} (hg : AllAllow g) (rec : TransformFn)
    (hrec : ∀ s x y, (rec s x).result = Except.ok y → y = x)
    (stack : List Node) (qualifier : Option Node) (column : Node) (out : Node)
    (h : (trReference g rec stack qualifier column).result = Except.ok out) :
    out = Node.referenceN qualifier column := by
  simp only [trReference] at h
  by_cases hcond : (!(stack.any Node.isWhereN) && !(stack.any Node.isJoinN)) = true
  · rw [if_pos hcond] at h
    obtain ⟨q', hq, h⟩ := Res.bind_result_ok h
    obtain ⟨c', hc, h⟩ := Res.bind_result_ok h
    rw [pure_result_ok h, hrec _ _ _ hc,
      optM_result_ok_id (fun x hx y hy => hrec _ _ _ hy) hq]
  · rw [if_neg hcond] at h
    obtain ⟨tbl, htbl, h⟩ := Res.bind_result_ok h
    split at h
    · split at h
      · obtain ⟨gr, hgr, h⟩ := Res.bind_result_ok h
        obtain ⟨u, hu, h⟩ := Res.bind_result_ok h
        obtain ⟨q', hq, h⟩ := Res.bind_result_ok h
        obtain ⟨c', hc, h⟩ := Res.bind_result_ok h
        rw [pure_result_ok h, hrec _ _ _ hc,
          optM_result_ok_id (fun x hx y hy => hrec _ _ _ hy) hq]
      · exact absurd h errRes_result_not_ok
    · exact absurd h errRes_result_not_ok

theorem trReturning_allow_id {g : Guard} (hg : AllAllow g) (rec : TransformFn)
    (hrec : ∀ s x y, (rec s x).result = Except.ok y → y = x)
    (stack : List Node) (selections : List Node) (out : Node)
    (h : (trReturning g rec stack selections).result = Except.ok out) :
    out = Node.returningN selections := by
  unfold trReturning at h
  split at h
  · exact absurd h errRes_result_not_ok
  · split at h
    · split at h
      · obtain ⟨sels', hsels, h⟩ := Res.bind_result_ok h
        obtain ⟨sels2, hsels2, h⟩ := Res.bind_result_ok h
        rw [pure_result_ok h, listM_result_ok_id (fun x hx y hy => hrec _ _ _ hy) hsels2,
          transformSelectionsFn_allow_id hg _ _ _ _ _ _ hsels]
      · exact absurd h errRes_result_not_ok
    · split at h
      · obtain ⟨sels', hsels, h⟩ := Res.bind_result_ok h
        obtain ⟨sels2, hsels2, h⟩ := Res.bind_result_ok h
        rw [pure_result_ok h, listM_result_ok_id (fun x hx y hy => hrec _ _ _ hy) hsels2,
          transformSelectionsFn_allow_id hg _ _ _ _ _ _ hsels]
      · exact absurd h errRes_result_not_ok
    · split at h
      · split at h
        · obtain ⟨sels', hsels, h⟩ := Res.bind_result_ok h
          obtain ⟨sels2, hsels2, h⟩ := Res.bind_result_ok h
          rw [pure_result_ok h, listM_result_ok_id (fun x hx y hy => hrec _ _ _ hy) hsels2,
            transformSelectionsFn_allow_id hg _ _ _ _ _ _ hsels]
        · exact absurd h errRes_result_not_ok
      · exact absurd h errRes_result_not_ok
    · exact absurd h errRes_result_not_ok

end KAC

namespace KAC

theorem trSelectQuery_allow_id {g : Guard} (hg : AllAllow g) (rec : TransformFn)
    (hrec : ∀ s x y, (rec s x).result = Except.ok y → y = x)
    (stack : List Node) (fromNode : Option Node) (selections joins : Option (List Node))
    (whereNode : Option Node) (out : Node)
    (h : (trSelectQuery g rec stack fromNode selections joins whereNode).result = Except.ok out) :
    out = Node.selectQueryN fromNode selections joins whereNode := by
  unfold trSelectQuery at h
  split at h
  · obtain ⟨s', hs, h⟩ := Res.bind_result_ok h
    obtain ⟨j', hj, h⟩ := Res.bind_result_ok h
    obtain ⟨w', hw, h⟩ := Res.bind_result_ok h
    rw [pure_result_ok h,
      optListM_result_ok_id (fun x xs hxs hx y hy => hrec _ _ _ hy) hs,
      optListM_result_ok_id (fun x xs hxs hx y hy => hrec _ _ _ hy) hj,
      optM_result_ok_id (fun x hx y hy => hrec _ _ _ hy) hw]
  · split at h
    · split at h
      · split at h
        · split at h
          · exact absurd h errRes_result_not_ok
          · obtain ⟨gr, hgr, h⟩ := Res.bind_result_ok h
            have hgr' : gr = TableDecision.allow := by
              simpa [callTable, hg.1] using hgr.symm
            subst hgr'
            obtain ⟨u, hu, h⟩ := Res.bind_result_ok h
            obtain ⟨sels', hsels, h⟩ := Res.bind_result_ok h
            obtain ⟨nw, hnw, h⟩ := Res.bind_result_ok h
            have hnw' : nw = whereNode := pure_result_ok hnw
            obtain ⟨f', hf, h⟩ := Res.bind_result_ok h
            obtain ⟨s', hs, h⟩ := Res.bind_result_ok h
            obtain ⟨j', hj, h⟩ := Res.bind_result_ok h
            obtain ⟨w', hw, h⟩ := Res.bind_result_ok h
            rw [pure_result_ok h, hrec _ _ _ hf,
              optListM_result_ok_id (fun x xs hxs hx y hy => hrec _ _ _ hy) hs,
              transformSelectionsFn_allow_id hg _ _ _ _ _ _ hsels,
              optListM_result_ok_id (fun x xs hxs hx y hy => hrec _ _ _ hy) hj,
              optM_result_ok_id (fun x hx y hy => hrec _ _ _ hy) hw, hnw']
        · exact absurd h errRes_result_not_ok
      · exact absurd h errRes_result_not_ok
    · exact absurd h errRes_result_not_ok

theorem trInsertQuery_allow_id {g : Guard} (hg : AllAllow g) (rec : TransformFn)
    (hrec : ∀ s x y, (rec s x).result = Except.ok y → y = x)
    (stack : List Node) (into : Node) (columns : Option (List Node))
    (values returning : Option Node) (out : Node)
    (h : (trInsertQuery g rec stack into columns values returning).result = Except.ok out) :
    out = Node.insertQueryN into columns values returning := by
  unfold trInsertQuery at h
  split at h
  · obtain ⟨gr, hgr, h⟩ := Res.bind_result_ok h
    obtain ⟨u, hu, h⟩ := Res.bind_result_ok h
    split at h
    · obtain ⟨into', hi, h⟩ := Res.bind_result_ok h
      obtain ⟨vals', hv, h⟩ := Res.bind_result_ok h
      obtain ⟨ret', hr, h⟩ := Res.bind_result_ok h
      rw [pure_result_ok h, hrec _ _ _ hi,
        optM_result_ok_id (fun x hx y hy => hrec _ _ _ hy) hv,
        optM_result_ok_id (fun x hx y hy => hrec _ _ _ hy) hr]
    · obtain ⟨cols2, hc2, h⟩ := Res.bind_result_ok h
      obtain ⟨into', hi, h⟩ := Res.bind_result_ok h
      obtain ⟨cols', hc, h⟩ := Res.bind_result_ok h
      obtain ⟨vals', hv, h⟩ := Res.bind_result_ok h
      obtain ⟨ret', hr, h⟩ := Res.bind_result_ok h
      rw [pure_result_ok h, hrec _ _ _ hi,
        optListM_result_ok_id (fun x xs hxs hx y hy => hrec _ _ _ hy) hc,
        insertColumnsLoop_allow_id hg _ _ _ hc2,
        optM_result_ok_id (fun x hx y hy => hrec _ _ _ hy) hv,
        optM_result_ok_id (fun x hx y hy => hrec _ _ _ hy) hr]
  · exact absurd h errRes_result_not_ok

theorem trUpdateQuery_allow_id {g : Guard} (hg : AllAllow g) (rec : TransformFn)
    (hrec : ∀ s x y, (rec s x).result = Except.ok y → y = x)
    (stack : List Node) (table : Node) (fromNode : Option Node)
    (updates : Option (List Node)) (whereNode returning : Option Node) (out : Node)
    (h : (trUpdateQuery g rec stack table fromNode updates whereNode returning).result
        = Except.ok out) :
    out = Node.updateQueryN table fromNode updates whereNode returning := by
  unfold trUpdateQuery at h
  split at h
  · obtain ⟨gr, hgr, h⟩ := Res.bind_result_ok h
    have hgr' : gr = TableDecision.allow := by
      simpa [callTable, hg.1] using hgr.symm
    subst hgr'
    obtain ⟨u, hu, h⟩ := Res.bind_result_ok h
    obtain ⟨u2, hu2, h⟩ := Res.bind_result_ok h
    obtain ⟨nw, hnw, h⟩ := Res.bind_result_ok h
    have hnw' : nw = whereNode := pure_result_ok hnw
    obtain ⟨table', ht, h⟩ := Res.bind_result_ok h
    obtain ⟨from', hfr, h⟩ := Res.bind_result_ok h
    obtain ⟨ups', hup, h⟩ := Res.bind_result_ok h
    obtain ⟨w', hw, h⟩ := Res.bind_result_ok h
    obtain ⟨ret', hr, h⟩ := Res.bind_result_ok h
    rw [pure_result_ok h, hrec _ _ _ ht,
      optM_result_ok_id (fun x hx y hy => hrec _ _ _ hy) hfr,
      optListM_result_ok_id (fun x xs hxs hx y hy => hrec _ _ _ hy) hup,
      optM_result_ok_id (fun x hx y hy => hrec _ _ _ hy) hw, hnw',
      optM_result_ok_id (fun x hx y hy => hrec _ _ _ hy) hr]
  · exact absurd h errRes_result_not_ok

theorem trDeleteQuery_allow_id {g : Guard} (hg : AllAllow g) (rec : TransformFn)
    (hrec : ∀ s x y, (rec s x).result = Except.ok y → y = x)
    (stack : List Node) (fromNode : Node) (usingNode whereNode returning : Option Node)
    (out : Node)
    (h : (trDeleteQuery g rec stack fromNode usingNode whereNode returning).result
        = Except.ok out) :
    out = Node.deleteQueryN fromNode usingNode whereNode returning := by
  unfold trDeleteQuery at h
  split at h
  · split at h
    · split at h
      · obtain ⟨gr, hgr, h⟩ := Res.bind_result_ok h
        obtain ⟨u, hu, h⟩ := Res.bind_result_ok h
        obtain ⟨f', hf, h⟩ := Res.bind_result_ok h
        obtain ⟨u', hus, h⟩ := Res.bind_result_ok h
        obtain ⟨w', hw, h⟩ := Res.bind_result_ok h
        obtain ⟨ret', hr, h⟩ := Res.bind_result_ok h
        rw [pure_result_ok h, hrec _ _ _ hf,
          optM_result_ok_id (fun x hx y hy => hrec _ _ _ hy) hus,
          optM_result_ok_id (fun x hx y hy => hrec _ _ _ hy) hw,
          optM_result_ok_id (fun x hx y hy => hrec _ _ _ hy) hr]
      · exact absurd h errRes_result_not_ok
    · exact absurd h errRes_result_not_ok
  · exact absurd h errRes_result_not_ok

end KAC

namespace KAC

theorem transformNode_allow_id {g : Guard} (hg : AllAllow g) :
    ∀ fuel stack n m, (transformNode g fuel stack n).result = Except.ok m → m = n := by
  intro fuel
  induction fuel with
  | zero =>
      intro stack n m h
      exact absurd h errRes_result_not_ok
  | succ f ih =>
      intro stack n m h
      cases n with
      | tableN sch nm => exact pure_result_ok h
      | columnN nm => exact pure_result_ok h
      | selectAllN => exact pure_result_ok h
      | identifierN nm => exact pure_result_ok h
      | valueN v => exact pure_result_ok h
      | selectionN sel =>
          simp only [transformNode] at h
          obtain ⟨sel', hs, h⟩ := Res.bind_result_ok h
          rw [pure_result_ok h, ih _ _ _ hs]
      | aliasN inner al =>
          simp only [transformNode] at h
          obtain ⟨inner', hi, h⟩ := Res.bind_result_ok h
          obtain ⟨al', ha, h⟩ := Res.bind_result_ok h
          rw [pure_result_ok h, ih _ _ _ hi, ih _ _ _ ha]
      | onN e =>
          simp only [transformNode] at h
          obtain ⟨e', he, h⟩ := Res.bind_result_ok h
          rw [pure_result_ok h, ih _ _ _ he]
      | whereN e =>
          simp only [transformNode] at h
          obtain ⟨e', he, h⟩ := Res.bind_result_ok h
          rw [pure_result_ok h, ih _ _ _ he]
      | andN l r =>
          simp only [transformNode] at h
          obtain ⟨l', hl, h⟩ := Res.bind_result_ok h
          obtain ⟨r', hr, h⟩ := Res.bind_result_ok h
          rw [pure_result_ok h, ih _ _ _ hl, ih _ _ _ hr]
      | orN l r =>
          simp only [transformNode] at h
          obtain ⟨l', hl, h⟩ := Res.bind_result_ok h
          obtain ⟨r', hr, h⟩ := Res.bind_result_ok h
          rw [pure_result_ok h, ih _ _ _ hl, ih _ _ _ hr]
      | binN l op r =>
          simp only [transformNode] at h
          obtain ⟨l', hl, h⟩ := Res.bind_result_ok h
          obtain ⟨r', hr, h⟩ := Res.bind_result_ok h
          rw [pure_result_ok h, ih _ _ _ hl, ih _ _ _ hr]
      | columnUpdateN c v =>
          simp only [transformNode] at h
          obtain ⟨c', hc, h⟩ := Res.bind_result_ok h
          obtain ⟨v', hv, h⟩ := Res.bind_result_ok h
          rw [pure_result_ok h, ih _ _ _ hc, ih _ _ _ hv]
      | valuesN ls =>
          simp only [transformNode] at h
          obtain ⟨ls', hl, h⟩ := Res.bind_result_ok h
          rw [pure_result_ok h, listM_result_ok_id (fun x hx y hy => ih _ _ _ hy) hl]
      | valueListN vs =>
          simp only [transformNode] at h
          obtain ⟨vs', hv, h⟩ := Res.bind_result_ok h
          rw [pure_result_ok h, listM_result_ok_id (fun x hx y hy => ih _ _ _ hy) hv]
      | selectQueryN fromNode selections joins whereNode =>
          simp only [transformNode] at h
          exact trSelectQuery_allow_id hg _ (fun s x y hy => ih s x y hy) _ _ _ _ _ _ h
      | insertQueryN into columns values returning =>
          simp only [transformNode] at h
          exact trInsertQuery_allow_id hg _ (fun s x y hy => ih s x y hy) _ _ _ _ _ _ h
      | updateQueryN table fromNode updates whereNode returning =>
          simp only [transformNode] at h
          exact trUpdateQuery_allow_id hg _ (fun s x y hy => ih s x y hy) _ _ _ _ _ _ _ h
      | deleteQueryN fromNode usingNode whereNode returning =>
          simp only [transformNode] at h
          exact trDeleteQuery_allow_id hg _ (fun s x y hy => ih s x y hy) _ _ _ _ _ _ h
      | returningN selections =>
          simp only [transformNode] at h
          exact trReturning_allow_id hg _ (fun s x y hy => ih s x y hy) _ _ _ h
      | joinN table onNode =>
          simp only [transformNode] at h
          exact trJoin_allow_id hg _ (fun s x y hy => ih s x y hy) _ _ _ _ h
      | fromN froms =>
          simp only [transformNode] at h
          exact trFrom_allow_id hg _ (fun s x y hy => ih s x y hy) _ _ _ h
      | usingN tables =>
          simp only [transformNode] at h
          exact trUsing_allow_id hg _ (fun s x y hy => ih s x y hy) _ _ _ h
      | referenceN qualifier column =>
          simp only [transformNode] at h
          exact trReference_allow_id hg _ (fun s x y hy => ih s x y hy) _ _ _ _ h

end KAC

namespace KAC

/-- The guard obtained when the caller supplies no table and no column
guard: both default to always-Allow. -/
def c7wguard : Guard := fillGuard ⟨none, none⟩

/-- **C7** (amended): under guards that always return Allow, the
transformation is the identity on every statement it accepts: whenever
the transformation succeeds, the output IR equals the input node. The
original universal claim fails because even the all-Allow guard rejects
some statements (see the `select *` counterexample). -/
theorem c7_allow_identity_amended {g : Guard} (hg : AllAllow g)
    (fuel : Nat) (n m : Node)
    (h : (transformQuery g fuel n).result = Except.ok m) : m = n :=
  transformNode_allow_id hg fuel [] n m h

/-- C7 witness: the default (no-guard) all-Allow guard transforms a
concrete Update statement successfully, and by `c7_allow_identity_amended`
the output equals the input. -/
theorem c7_allow_identity_witness :
    AllAllow c7wguard ∧
    (transformQuery c7wguard 20 c10update).result = Except.ok c10update := by
  have hg : AllAllow c7wguard := ⟨fun t st ctx => rfl, fun t c st ctx => rfl⟩
  refine ⟨hg, ?_⟩
  obtain ⟨m, hm⟩ : ∃ m, (transformQuery c7wguard 20 c10update).result = Except.ok m :=
    ⟨_, rfl⟩
  rw [hm, c7_allow_identity_amended hg 20 c10update m hm]

end KAC

namespace KAC

/-- Expressions built only from column/table/value/identifier leaves,
table-qualified or unqualified column references, and and/or/binary
operators: the fragment grammar of predicates returned by guards and of
ordinary filter clauses (no nested query nodes). -/
def plainExpr : Node → Bool
  | Node.columnN _ => true
  | Node.tableN _ _ => true
  | Node.valueN _ => true
  | Node.identifierN _ => true
  | Node.referenceN none c => plainExpr c
  | Node.referenceN (some (Node.tableN _ _)) c => plainExpr c
  | Node.andN l r => plainExpr l && plainExpr r
  | Node.orN l r => plainExpr l && plainExpr r
  | Node.binN l _ r => plainExpr l && plainExpr r
  | _ => false

/-- An optional filter clause that is absent or wraps a plain expression. -/
def plainWhereOpt : Option Node → Bool
  | none => true
  | some (Node.whereN w) => plainExpr w
  | some _ => false

theorem plainExpr_transform_id {g : Guard} :
    ∀ fuel stack e v, plainExpr e = true →
      (transformNode g fuel stack e).result = Except.ok v → v = e := by
  intro fuel
  induction fuel with
  | zero =>
      intro stack e v hp h
      exact absurd h errRes_result_not_ok
  | succ f ih =>
      intro stack e v hp h
      cases e with
      | columnN nm => exact pure_result_ok h
      | tableN sch nm => exact pure_result_ok h
      | valueN o => exact pure_result_ok h
      | identifierN nm => exact pure_result_ok h
      | andN l r =>
          obtain ⟨hl, hr⟩ : plainExpr l = true ∧ plainExpr r = true := by
            simpa [plainExpr] using hp
          simp only [transformNode] at h
          obtain ⟨l', hl2, h⟩ := Res.bind_result_ok h
          obtain ⟨r', hr2, h⟩ := Res.bind_result_ok h
          rw [pure_result_ok h, ih _ _ _ hl hl2, ih _ _ _ hr hr2]
      | orN l r =>
          obtain ⟨hl, hr⟩ : plainExpr l = true ∧ plainExpr r = true := by
            simpa [plainExpr] using hp
          simp only [transformNode] at h
          obtain ⟨l', hl2, h⟩ := Res.bind_result_ok h
          obtain ⟨r', hr2, h⟩ := Res.bind_result_ok h
          rw [pure_result_ok h, ih _ _ _ hl hl2, ih _ _ _ hr hr2]
      | binN l op r =>
          obtain ⟨hl, hr⟩ : plainExpr l = true ∧ plainExpr r = true := by
            simpa [plainExpr] using hp
          simp only [transformNode] at h
          obtain ⟨l', hl2, h⟩ := Res.bind_result_ok h
          obtain ⟨r', hr2, h⟩ := Res.bind_result_ok h
          rw [pure_result_ok h, ih _ _ _ hl hl2, ih _ _ _ hr hr2]
      | referenceN q c =>
          have hqp : ∀ x, q = some x → plainExpr x = true := by
            intro x hx
            subst hx
            cases x <;> simp_all [plainExpr]
          have hcp : plainExpr c = true := by
            cases q with
            | none => simpa [plainExpr] using hp
            | some t => cases t <;> simp_all [plainExpr]
          simp only [transformNode, trReference] at h
          by_cases hcond : (!((Node.referenceN q c :: stack).any Node.isWhereN)
              && !((Node.referenceN q c :: stack).any Node.isJoinN)) = true
          · rw [if_pos hcond] at h
            obtain ⟨q', hq, h⟩ := Res.bind_result_ok h
            obtain ⟨c', hc, h⟩ := Res.bind_result_ok h
            rw [pure_result_ok h, ih _ _ _ hcp hc,
              optM_result_ok_id (fun x hx y hy => ih _ _ _ (hqp x hx) hy) hq]
          · rw [if_neg hcond] at h
            obtain ⟨tbl, htbl, h⟩ := Res.bind_result_ok h
            split at h
            · split at h
              · obtain ⟨gr, hgr, h⟩ := Res.bind_result_ok h
                obtain ⟨u, hu, h⟩ := Res.bind_result_ok h
                obtain ⟨q', hq, h⟩ := Res.bind_result_ok h
                obtain ⟨c', hc, h⟩ := Res.bind_result_ok h
                rw [pure_result_ok h, ih _ _ _ (by simp [plainExpr]) hc,
                  optM_result_ok_id (fun x hx y hy => ih _ _ _ (hqp x hx) hy) hq]
              · exact absurd h errRes_result_not_ok
            · exact absurd h errRes_result_not_ok
      | selectAllN => simp [plainExpr] at hp
      | selectionN sel => simp [plainExpr] at hp
      | aliasN a b => simp [plainExpr] at hp
      | fromN fs => simp [plainExpr] at hp
      | joinN t o => simp [plainExpr] at hp
      | onN e => simp [plainExpr] at hp
      | whereN e => simp [plainExpr] at hp
      | selectQueryN a b c d => simp [plainExpr] at hp
      | insertQueryN a b c d => simp [plainExpr] at hp
      | updateQueryN a b c d e2 => simp [plainExpr] at hp
      | deleteQueryN a b c d => simp [plainExpr] at hp
      | columnUpdateN a b => simp [plainExpr] at hp
      | returningN s => simp [plainExpr] at hp
      | usingN t => simp [plainExpr] at hp
      | valuesN l => simp [plainExpr] at hp
      | valueListN l => simp [plainExpr] at hp

theorem optM_result_ok_some {f : α → Res α} {a : α} {o : Option α}
    (h : (optM f (some a)).result = Except.ok o) :
    ∃ b, (f a).result = Except.ok b ∧ o = some b := by
  unfold optM at h
  obtain ⟨b, hb, h⟩ := Res.bind_result_ok h
  exact ⟨b, hb, pure_result_ok h⟩

/-- Transforming an absent-or-plain filter clause child-by-child leaves it
unchanged on success, for every guard and every fuel. -/
theorem whereOpt_optM_id {g : Guard} (fuel : Nat) (stack : List Node) :
    ∀ wopt w', plainWhereOpt wopt = true →
      (optM (fun x => transformNode g fuel stack x) wopt).result = Except.ok w' →
      w' = wopt := by
  intro wopt w' hp h
  cases wopt with
  | none => exact pure_result_ok h
  | some x =>
      cases x with
      | whereN w =>
          obtain ⟨b, hb, ho⟩ := optM_result_ok_some h
          cases fuel with
          | zero => exact absurd hb errRes_result_not_ok
          | succ f =>
              simp only [transformNode] at hb
              obtain ⟨e', he, hb⟩ := Res.bind_result_ok hb
              have hw : plainExpr w = true := by simpa [plainWhereOpt] using hp
              rw [ho, pure_result_ok hb, plainExpr_transform_id _ _ _ _ hw he]
      | columnN nm => simp [plainWhereOpt] at hp
      | tableN sch nm => simp [plainWhereOpt] at hp
      | valueN o => simp [plainWhereOpt] at hp
      | identifierN nm => simp [plainWhereOpt] at hp
      | selectAllN => simp [plainWhereOpt] at hp
      | selectionN sel => simp [plainWhereOpt] at hp
      | aliasN a b => simp [plainWhereOpt] at hp
      | fromN fs => simp [plainWhereOpt] at hp
      | joinN t o => simp [plainWhereOpt] at hp
      | onN e => simp [plainWhereOpt] at hp
      | andN l r => simp [plainWhereOpt] at hp
      | orN l r => simp [plainWhereOpt] at hp
      | binN l op r => simp [plainWhereOpt] at hp
      | referenceN q c => simp [plainWhereOpt] at hp
      | selectQueryN a b c d => simp [plainWhereOpt] at hp
      | insertQueryN a b c d => simp [plainWhereOpt] at hp
      | updateQueryN a b c d e2 => simp [plainWhereOpt] at hp
      | deleteQueryN a b c d => simp [plainWhereOpt] at hp
      | columnUpdateN a b => simp [plainWhereOpt] at hp
      | returningN s => simp [plainWhereOpt] at hp
      | usingN t => simp [plainWhereOpt] at hp
      | valuesN l => simp [plainWhereOpt] at hp
      | valueListN l => simp [plainWhereOpt] at hp

end KAC

namespace KAC

/-- Case analysis on an absent-or-plain filter clause. -/
theorem plainWhereOpt_cases {wopt : Option Node} (hp : plainWhereOpt wopt = true) :
    wopt = none ∨ ∃ w, wopt = some (Node.whereN w) ∧ plainExpr w = true := by
  cases wopt with
  | none => exact Or.inl rfl
  | some x =>
      cases x
      case whereN w => exact Or.inr ⟨w, rfl, by simpa [plainWhereOpt] using hp⟩
      all_goals simp [plainWhereOpt] at hp

/-- The filter clause the claim says a rewritten statement ends up with
(written from the claim's words, for comparison with the transformer):
plain Allow leaves the filter unchanged; Allow-with-predicate makes the
predicate the filter when none was present, and the AND of the predicate
and the original filter otherwise. -/
def specWhere (d : TableDecision) (wopt : Option Node) : Option Node :=
  match d with
  | TableDecision.allowWith pred =>
      some (Node.whereN (match wopt with
        | some (Node.whereN w) => Node.andN pred w
        | _ => pred))
  | _ => wopt

end KAC


namespace KAC

/-- **C4**: for a Select or Update statement on a named table whose table
guard answers plain Allow or Allow-with-predicate (predicate and original
filter being plain expressions): the transformed statement's filter
clause is `specWhere` of the guard decision and the original clause —
unchanged for plain Allow, the predicate alone when no filter was
present, and `and(predicate, original)` otherwise. -/
theorem c4_where_splice :
    (∀ g sch nm sels joins wopt pred fuel m,
       (g.table ⟨sch, nm⟩ StatementType.select TableUsageContext.topLevel
           = TableDecision.allow ∨
        g.table ⟨sch, nm⟩ StatementType.select TableUsageContext.topLevel
           = TableDecision.allowWith pred) →
       plainExpr pred = true → plainWhereOpt wopt = true →
       (transformQuery g fuel (Node.selectQueryN (some (Node.fromN [Node.tableN sch nm]))
          (some sels) joins wopt)).result = Except.ok m →
       ∃ f' s' j', m = Node.selectQueryN f' s' j'
         (specWhere (g.table ⟨sch, nm⟩ StatementType.select TableUsageContext.topLevel)
            wopt)) ∧
    (∀ g sch nm fromNode updates wopt ret pred fuel m,
       (g.table ⟨sch, nm⟩ StatementType.update TableUsageContext.topLevel
           = TableDecision.allow ∨
        g.table ⟨sch, nm⟩ StatementType.update TableUsageContext.topLevel
           = TableDecision.allowWith pred) →
       plainExpr pred = true → plainWhereOpt wopt = true →
       (transformQuery g fuel (Node.updateQueryN (Node.tableN sch nm) fromNode updates
          wopt ret)).result = Except.ok m →
       ∃ t' f' u' r', m = Node.updateQueryN t' f' u'
         (specWhere (g.table ⟨sch, nm⟩ StatementType.update TableUsageContext.topLevel)
            wopt) r') := by
  constructor
  · intro g sch nm sels joins wopt pred fuel m hd hppred hpw h
    cases fuel with
    | zero => exact absurd h errRes_result_not_ok
    | succ F =>
        simp only [transformQuery, transformNode, trSelectQuery] at h
        obtain ⟨gr, hgr, h⟩ := Res.bind_result_ok h
        rcases hd with hd | hd
        · have hgr' : gr = TableDecision.allow := by simpa [callTable, hd] using hgr.symm
          subst hgr'
          obtain ⟨u, hu, h⟩ := Res.bind_result_ok h
          obtain ⟨sels', hsels, h⟩ := Res.bind_result_ok h
          obtain ⟨nw, hnw, h⟩ := Res.bind_result_ok h
          have hnw' : nw = wopt := pure_result_ok hnw
          obtain ⟨f', hf, h⟩ := Res.bind_result_ok h
          obtain ⟨s', hs, h⟩ := Res.bind_result_ok h
          obtain ⟨j', hj, h⟩ := Res.bind_result_ok h
          obtain ⟨w', hw, h⟩ := Res.bind_result_ok h
          refine ⟨some f', s', j', ?_⟩
          rw [pure_result_ok h]
          rw [hnw'] at hw
          rw [whereOpt_optM_id _ _ _ _ hpw hw, hd]
          simp [specWhere]
        · have hgr' : gr = TableDecision.allowWith pred := by
            simpa [callTable, hd] using hgr.symm
          subst hgr'
          rcases plainWhereOpt_cases hpw with rfl | ⟨w, rfl, hwp⟩
          · obtain ⟨u, hu, h⟩ := Res.bind_result_ok h
            obtain ⟨sels', hsels, h⟩ := Res.bind_result_ok h
            obtain ⟨nw, hnw, h⟩ := Res.bind_result_ok h
            obtain ⟨e', he, hnw⟩ := Res.bind_result_ok hnw
            have hnwEq : nw = some (Node.whereN e') := pure_result_ok hnw
            have he' : e' = pred := plainExpr_transform_id _ _ _ _ hppred he
            obtain ⟨f', hf, h⟩ := Res.bind_result_ok h
            obtain ⟨s', hs, h⟩ := Res.bind_result_ok h
            obtain ⟨j', hj, h⟩ := Res.bind_result_ok h
            obtain ⟨w', hw, h⟩ := Res.bind_result_ok h
            refine ⟨some f', s', j', ?_⟩
            rw [pure_result_ok h]
            rw [hnwEq, he'] at hw
            rw [whereOpt_optM_id _ _ _ _ (by simpa [plainWhereOpt] using hppred) hw, hd]
            simp [specWhere]
          · obtain ⟨u, hu, h⟩ := Res.bind_result_ok h
            obtain ⟨sels', hsels, h⟩ := Res.bind_result_ok h
            obtain ⟨nw, hnw, h⟩ := Res.bind_result_ok h
            obtain ⟨e', he, hnw⟩ := Res.bind_result_ok hnw
            have hnwEq : nw = some (Node.whereN e') := pure_result_ok hnw
            have he' : e' = Node.andN pred w :=
              plainExpr_transform_id _ _ _ _ (by simp [plainExpr, hppred, hwp]) he
            obtain ⟨f', hf, h⟩ := Res.bind_result_ok h
            obtain ⟨s', hs, h⟩ := Res.bind_result_ok h
            obtain ⟨j', hj, h⟩ := Res.bind_result_ok h
            obtain ⟨w', hw, h⟩ := Res.bind_result_ok h
            refine ⟨some f', s', j', ?_⟩
            rw [pure_result_ok h]
            rw [hnwEq, he'] at hw
            rw [whereOpt_optM_id _ _ _ _ (by simp [plainWhereOpt, plainExpr, hppred, hwp]) hw,
              hd]
            simp [specWhere]
  · intro g sch nm fromNode updates wopt ret pred fuel m hd hppred hpw h
    cases fuel with
    | zero => exact absurd h errRes_result_not_ok
    | succ F =>
        simp only [transformQuery, transformNode, trUpdateQuery] at h
        obtain ⟨gr, hgr, h⟩ := Res.bind_result_ok h
        rcases hd with hd | hd
        · have hgr' : gr = TableDecision.allow := by simpa [callTable, hd] using hgr.symm
          subst hgr'
          obtain ⟨u, hu, h⟩ := Res.bind_result_ok h
          obtain ⟨u2, hu2, h⟩ := Res.bind_result_ok h
          obtain ⟨nw, hnw, h⟩ := Res.bind_result_ok h
          have hnw' : nw = wopt := pure_result_ok hnw
          obtain ⟨t', ht, h⟩ := Res.bind_result_ok h
          obtain ⟨f', hf, h⟩ := Res.bind_result_ok h
          obtain ⟨u', hup, h⟩ := Res.bind_result_ok h
          obtain ⟨w', hw, h⟩ := Res.bind_result_ok h
          obtain ⟨r', hr, h⟩ := Res.bind_result_ok h
          refine ⟨t', f', u', r', ?_⟩
          rw [pure_result_ok h]
          rw [hnw'] at hw
          rw [whereOpt_optM_id _ _ _ _ hpw hw, hd]
          simp [specWhere]
        · have hgr' : gr = TableDecision.allowWith pred := by
            simpa [callTable, hd] using hgr.symm
          subst hgr'
          rcases plainWhereOpt_cases hpw with rfl | ⟨w, rfl, hwp⟩
          · obtain ⟨u, hu, h⟩ := Res.bind_result_ok h
            obtain ⟨u2, hu2, h⟩ := Res.bind_result_ok h
            obtain ⟨nw, hnw, h⟩ := Res.bind_result_ok h
            obtain ⟨e', he, hnw⟩ := Res.bind_result_ok hnw
            have hnwEq : nw = some (Node.whereN e') := pure_result_ok hnw
            have he' : e' = pred := plainExpr_transform_id _ _ _ _ hppred he
            obtain ⟨t', ht, h⟩ := Res.bind_result_ok h
            obtain ⟨f', hf, h⟩ := Res.bind_result_ok h
            obtain ⟨u', hup, h⟩ := Res.bind_result_ok h
            obtain ⟨w', hw, h⟩ := Res.bind_result_ok h
            obtain ⟨r', hr, h⟩ := Res.bind_result_ok h
            refine ⟨t', f', u', r', ?_⟩
            rw [pure_result_ok h]
            rw [hnwEq, he'] at hw
            rw [whereOpt_optM_id _ _ _ _ (by simpa [plainWhereOpt] using hppred) hw, hd]
            simp [specWhere]
          · obtain ⟨u, hu, h⟩ := Res.bind_result_ok h
            obtain ⟨u2, hu2, h⟩ := Res.bind_result_ok h
            obtain ⟨nw, hnw, h⟩ := Res.bind_result_ok h
            obtain ⟨e', he, hnw⟩ := Res.bind_result_ok hnw
            have hnwEq : nw = some (Node.whereN e') := pure_result_ok hnw
            have he' : e' = Node.andN pred w :=
              plainExpr_transform_id _ _ _ _ (by simp [plainExpr, hppred, hwp]) he
            obtain ⟨t', ht, h⟩ := Res.bind_result_ok h
            obtain ⟨f', hf, h⟩ := Res.bind_result_ok h
            obtain ⟨u', hup, h⟩ := Res.bind_result_ok h
            obtain ⟨w', hw, h⟩ := Res.bind_result_ok h
            obtain ⟨r', hr, h⟩ := Res.bind_result_ok h
            refine ⟨t', f', u', r', ?_⟩
            rw [pure_result_ok h]
            rw [hnwEq, he'] at hw
            rw [whereOpt_optM_id _ _ _ _ (by simp [plainWhereOpt, plainExpr, hppred, hwp]) hw,
              hd]
            simp [specWhere]

end KAC

namespace KAC

/-- Row-level-security predicate `person.org_id = ?` used by the C4 witness. -/
def c4pred : Node :=
  Node.binN (Node.referenceN (some personT) (Node.columnN "org_id")) "=" (Node.valueN none)

/-- Original filter expression `person.id = ?` of the C4 witness statement. -/
def c4w : Node :=
  Node.binN (Node.referenceN (some personT) (Node.columnN "id")) "=" (Node.valueN none)

/-- A guard answering Allow-with-predicate for every table and Allow for
every column. -/
def c4guard : Guard :=
  ⟨fun _ _ _ => TableDecision.allowWith c4pred, fun _ _ _ _ => ColumnDecision.allow⟩

/-- `select person.id from person where person.id = ?`. -/
def c4stmt : Node :=
  Node.selectQueryN (some (Node.fromN [personT]))
    (some [Node.selectionN (Node.referenceN (some personT) (Node.columnN "id"))])
    none (some (Node.whereN c4w))

/-- C4 witness: on a concrete Select with an existing filter under an
Allow-with-predicate guard, `c4_where_splice` yields the
`and(predicate, original)` filter clause. -/
theorem c4_where_splice_witness :
    (c4guard.table ⟨none, "person"⟩ StatementType.select TableUsageContext.topLevel
        = TableDecision.allow ∨
     c4guard.table ⟨none, "person"⟩ StatementType.select TableUsageContext.topLevel
        = TableDecision.allowWith c4pred) ∧
    plainExpr c4pred = true ∧
    plainWhereOpt (some (Node.whereN c4w)) = true ∧
    (∃ m, (transformQuery c4guard 20 c4stmt).result = Except.ok m ∧
      ∃ f' s' j', m = Node.selectQueryN f' s' j'
        (specWhere (c4guard.table ⟨none, "person"⟩ StatementType.select
           TableUsageContext.topLevel) (some (Node.whereN c4w)))) := by
  refine ⟨Or.inr rfl, rfl, rfl, ?_⟩
  obtain ⟨m, hm⟩ : ∃ m, (transformQuery c4guard 20 c4stmt).result = Except.ok m := ⟨_, rfl⟩
  exact ⟨m, hm, c4_where_splice.1 c4guard none "person" _ none (some (Node.whereN c4w))
    c4pred 20 m (Or.inr rfl) rfl rfl hm⟩

end KAC

namespace KAC

theorem selection_selectAll_id {g : Guard} :
    ∀ fuel stack v,
      (transformNode g fuel stack (Node.selectionN Node.selectAllN)).result = Except.ok v →
      v = Node.selectionN Node.selectAllN := by
  intro fuel stack v h
  cases fuel with
  | zero => exact absurd h errRes_result_not_ok
  | succ f =>
      simp only [transformNode] at h
      obtain ⟨sel', hsel, h⟩ := Res.bind_result_ok h
      cases f with
      | zero => exact absurd hsel errRes_result_not_ok
      | succ f2 =>
          have hsel' : sel' = Node.selectAllN := pure_result_ok hsel
          subst hsel'
          exact pure_result_ok h

theorem from_single_table_select_id {g : Guard} :
    ∀ fuel stack a b c d sch nm v,
      (transformNode g fuel (Node.selectQueryN a b c d :: stack)
        (Node.fromN [Node.tableN sch nm])).result = Except.ok v →
      v = Node.fromN [Node.tableN sch nm] := by
  intro fuel stack a b c d sch nm v h
  cases fuel with
  | zero => exact absurd h errRes_result_not_ok
  | succ f =>
      simp only [transformNode, trFrom] at h
      rw [show parentNode (Node.fromN [Node.tableN sch nm] :: Node.selectQueryN a b c d :: stack)
        = some (Node.selectQueryN a b c d) from by simp [parentNode]] at h
      obtain ⟨froms', hfs, h⟩ := Res.bind_result_ok h
      rw [pure_result_ok h,
        listM_result_ok_id (fun x hx y hy =>
          plainExpr_transform_id _ _ _ _ (by simp_all [plainExpr]) hy) hfs]

theorem rls_select_topLevel_splice {g : Guard} :
    ∀ fuel stack sch nm pred v,
      g.table ⟨sch, nm⟩ StatementType.select TableUsageContext.topLevel
        = TableDecision.allowWith pred →
      plainExpr pred = true →
      stack.any Node.isJoinN = true →
      (transformNode g fuel stack (Node.selectQueryN (some (Node.fromN [Node.tableN sch nm]))
        (some [Node.selectionN Node.selectAllN]) none none)).result = Except.ok v →
      v = Node.selectQueryN (some (Node.fromN [Node.tableN sch nm]))
        (some [Node.selectionN Node.selectAllN]) none (some (Node.whereN pred)) := by
  intro fuel stack sch nm pred v hT hppred hstk h
  cases fuel with
  | zero => exact absurd h errRes_result_not_ok
  | succ F =>
      simp only [transformNode, trSelectQuery] at h
      obtain ⟨gr, hgr, h⟩ := Res.bind_result_ok h
      have hgr' : gr = TableDecision.allowWith pred := by
        simpa [callTable, hT] using hgr.symm
      subst hgr'
      obtain ⟨u, hu, h⟩ := Res.bind_result_ok h
      obtain ⟨sels', hsels, h⟩ := Res.bind_result_ok h
      have hsels' : sels' = [Node.selectionN Node.selectAllN] := by
        unfold transformSelectionsFn at hsels
        rw [if_pos (by simp [Node.isJoinN, hstk])] at hsels
        exact pure_result_ok hsels
      obtain ⟨nw, hnw, h⟩ := Res.bind_result_ok h
      obtain ⟨e', he, hnw⟩ := Res.bind_result_ok hnw
      have hnwEq : nw = some (Node.whereN e') := pure_result_ok hnw
      have he' : e' = pred := plainExpr_transform_id _ _ _ _ hppred he
      obtain ⟨f', hf, h⟩ := Res.bind_result_ok h
      obtain ⟨s', hs, h⟩ := Res.bind_result_ok h
      obtain ⟨j', hj, h⟩ := Res.bind_result_ok h
      obtain ⟨w', hw, h⟩ := Res.bind_result_ok h
      rw [pure_result_ok h, from_single_table_select_id _ _ _ _ _ _ _ _ _ hf]
      rw [hsels'] at hs
      rw [optListM_result_ok_id (fun x xs hxs hx y hy => by
        injection hxs with hxs'
        subst hxs'
        simp only [List.mem_singleton] at hx
        subst hx
        exact selection_selectAll_id _ _ _ hy) hs]
      rw [pure_result_ok hj]
      rw [hnwEq, he'] at hw
      rw [whereOpt_optM_id _ _ _ _ (by simpa [plainWhereOpt] using hppred) hw]

end KAC

namespace KAC

/-- **C3** (amended): for a named table in a join clause, plain Allow in
the InJoin context leaves the table untouched.  When the InJoin guard
answers Allow-with-predicate, the table is replaced by the aliased
derived subquery `select * from table` — but the filter inside it comes
from re-invoking the guard in the TopLevel context, not from the InJoin
predicate; when both contexts answer the same Allow-with-predicate (as
with a context-insensitive guard), the subquery is filtered by that
predicate, with the table name as alias, as the original claim says. -/
theorem c3_join_rls_amended :
    (∀ (g : Guard) sch nm onNode stack fuel m,
       g.table ⟨sch, nm⟩ StatementType.select TableUsageContext.inJoin
         = TableDecision.allow →
       (transformNode g fuel stack (Node.joinN (Node.tableN sch nm) onNode)).result
         = Except.ok m →
       ∃ on', m = Node.joinN (Node.tableN sch nm) on') ∧
    (∀ (g : Guard) sch nm onNode stack fuel m pred,
       g.table ⟨sch, nm⟩ StatementType.select TableUsageContext.inJoin
         = TableDecision.allowWith pred →
       g.table ⟨sch, nm⟩ StatementType.select TableUsageContext.topLevel
         = TableDecision.allowWith pred →
       plainExpr pred = true →
       (transformNode g fuel stack (Node.joinN (Node.tableN sch nm) onNode)).result
         = Except.ok m →
       ∃ on', m = Node.joinN
         (Node.aliasN (Node.selectQueryN (some (Node.fromN [Node.tableN sch nm]))
           (some [Node.selectionN Node.selectAllN]) none (some (Node.whereN pred)))
           (Node.identifierN nm)) on') := by
  constructor
  · intro g sch nm onNode stack fuel m hJ h
    cases fuel with
    | zero => exact absurd h errRes_result_not_ok
    | succ F =>
        simp only [transformNode, trJoin] at h
        obtain ⟨gr, hgr, h⟩ := Res.bind_result_ok h
        have hgr' : gr = TableDecision.allow := by simpa [callTable, hJ] using hgr.symm
        subst hgr'
        obtain ⟨u, hu, h⟩ := Res.bind_result_ok h
        obtain ⟨tb', htb, h⟩ := Res.bind_result_ok h
        obtain ⟨on', hon, h⟩ := Res.bind_result_ok h
        refine ⟨on', ?_⟩
        rw [pure_result_ok h, plainExpr_transform_id _ _ _ _ (by simp [plainExpr]) htb]
  · intro g sch nm onNode stack fuel m pred hJ hT hppred h
    cases fuel with
    | zero => exact absurd h errRes_result_not_ok
    | succ F =>
        simp only [transformNode, trJoin] at h
        obtain ⟨gr, hgr, h⟩ := Res.bind_result_ok h
        have hgr' : gr = TableDecision.allowWith pred := by
          simpa [callTable, hJ] using hgr.symm
        subst hgr'
        cases F with
        | zero =>
            obtain ⟨u, hu, h⟩ := Res.bind_result_ok h
            obtain ⟨tb', htb, h⟩ := Res.bind_result_ok h
            exact absurd htb errRes_result_not_ok
        | succ F2 =>
            obtain ⟨u, hu, h⟩ := Res.bind_result_ok h
            obtain ⟨tb', htb, h⟩ := Res.bind_result_ok h
            obtain ⟨on', hon, h⟩ := Res.bind_result_ok h
            refine ⟨on', ?_⟩
            simp only [rlsSubquery, transformNode] at htb
            obtain ⟨inner', hin, htb⟩ := Res.bind_result_ok htb
            obtain ⟨al', hal, htb⟩ := Res.bind_result_ok htb
            have htbEq : tb' = Node.aliasN inner' al' := pure_result_ok htb
            rw [pure_result_ok h, htbEq,
              rls_select_topLevel_splice _ _ _ _ _ _ hT hppred (by simp [Node.isJoinN]) hin,
              plainExpr_transform_id _ _ _ _ (by simp [plainExpr]) hal]

/-- C3 witness: a context-insensitive Allow-with-predicate guard joins
`rsvp` as an aliased subquery filtered by the predicate, per
`c3_join_rls_amended`. -/
theorem c3_join_rls_witness :
    c4guard.table ⟨none, "rsvp"⟩ StatementType.select TableUsageContext.inJoin
      = TableDecision.allowWith c4pred ∧
    c4guard.table ⟨none, "rsvp"⟩ StatementType.select TableUsageContext.topLevel
      = TableDecision.allowWith c4pred ∧
    plainExpr c4pred = true ∧
    (∃ m, (transformNode c4guard 20 [] (Node.joinN rsvpT (some demoOn))).result
        = Except.ok m ∧
      ∃ on', m = Node.joinN (Node.aliasN (Node.selectQueryN (some (Node.fromN [rsvpT]))
        (some [Node.selectionN Node.selectAllN]) none (some (Node.whereN c4pred)))
        (Node.identifierN "rsvp")) on') := by
  refine ⟨rfl, rfl, rfl, ?_⟩
  obtain ⟨m, hm⟩ : ∃ m, (transformNode c4guard 20 [] (Node.joinN rsvpT (some demoOn))).result
      = Except.ok m := ⟨_, rfl⟩
  exact ⟨m, hm, c3_join_rls_amended.2 c4guard none "rsvp" (some demoOn) [] 20 m c4pred
    rfl rfl rfl hm⟩

end KAC
